import Mathlib

/-!
Verification development for the motion-gesture recognition engine of the
pitch-text-stream repository (GestureRecorder component and its helpers).

The engine consumes device-orientation samples (beta, gamma, timestamp) and
emits classified events.  JavaScript numbers are modelled as real numbers;
the per-frame body of the `onOrient` callback (after the frame-modulus
downsampling, which only selects which raw callbacks reach the body) is
modelled as a state-transition function `step`.  Display-only state
(`setGyro`, badges, toasts, haptics, SVG path strings) is omitted; all state
that influences detection (Kalman filters, base sample, hold counters,
last-gesture latch, cooldown deadline, pattern history, jitter zone,
learning buffer) is carried in `EngineState`.
-/

open Real

open scoped Classical

noncomputable section

set_option maxHeartbeats 1000000

/-! ### Kalman 1-D filter (class Kalman1D) -/

/-- Process noise `q = 0.003` of the source's `Kalman1D`. -/
def kalmanQ : ℝ := 0.003

/-- Measurement noise `r = 0.25` of the source's `Kalman1D`. -/
def kalmanR : ℝ := 0.25

/-- Mutable state of the source's `Kalman1D`: error covariance `p` and
estimate `x` (the gain `k` is recomputed on every update, so it is not
carried). Fresh instances start with `p = 0`, `x = 0`. -/
structure Kalman1D where
  p : ℝ
  x : ℝ

/-- `update(m)`: `p += q; k = p/(p+r); x += k*(m-x); p *= (1-k); return x`. -/
def Kalman1D.update (s : Kalman1D) (m : ℝ) : Kalman1D × ℝ :=
  let p1 := s.p + kalmanQ
  let g := p1 / (p1 + kalmanR)
  let x1 := s.x + g * (m - s.x)
  (⟨p1 * (1 - g), x1⟩, x1)

/-- The filter state after feeding the constant measurement `m` to a fresh
filter `n` times. -/
def kalSeq (m : ℝ) : ℕ → Kalman1D
  | 0 => ⟨0, 0⟩
  | n + 1 => ((kalSeq m n).update m).1

/-! ### Gesture kinds, thresholds and rules -/

/-- The eight instantaneous gesture kinds, in the iteration order of the
source's `RULES` object (JS object-literal insertion order). -/
inductive GKind
  | PASS | SHOT | TACKLE | VOICE_TAG | FOUL | CORNER | OFFSIDE | SUBSTITUTION
deriving DecidableEq, Repr

/-- The four movement-pattern names. -/
inductive PName
  | CIRCULAR | FIGURE_8 | ZIGZAG | SHAKE
deriving DecidableEq, Repr

/-- The `ThresholdConfig` interface of the source. -/
structure ThresholdConfig where
  PASS_MIN : ℝ
  PASS_MAX : ℝ
  PASS_ENABLED : Bool
  SHOT_MIN : ℝ
  SHOT_ENABLED : Bool
  TACKLE_MIN : ℝ
  TACKLE_ENABLED : Bool
  VOICE_TAG_THRESHOLD : ℝ
  VOICE_TAG_ENABLED : Bool
  FOUL_GAMMA_MIN : ℝ
  FOUL_BETA_MIN : ℝ
  FOUL_ENABLED : Bool
  CORNER_MIN : ℝ
  CORNER_MAX : ℝ
  CORNER_ENABLED : Bool
  OFFSIDE_MIN : ℝ
  OFFSIDE_MAX : ℝ
  OFFSIDE_ENABLED : Bool
  SUBSTITUTION_ENABLED : Bool
  CIRCULAR_ENABLED : Bool
  FIGURE_8_ENABLED : Bool
  ZIGZAG_ENABLED : Bool
  SHAKE_ENABLED : Bool

/-- The source's `DEFAULT_THRESHOLDS` constant. -/
def defaultThresholds : ThresholdConfig where
  PASS_MIN := 40
  PASS_MAX := 85
  PASS_ENABLED := true
  SHOT_MIN := 25
  SHOT_ENABLED := true
  TACKLE_MIN := 40
  TACKLE_ENABLED := true
  VOICE_TAG_THRESHOLD := 110
  VOICE_TAG_ENABLED := true
  FOUL_GAMMA_MIN := 55
  FOUL_BETA_MIN := 25
  FOUL_ENABLED := true
  CORNER_MIN := 15
  CORNER_MAX := 40
  CORNER_ENABLED := true
  OFFSIDE_MIN := 15
  OFFSIDE_MAX := 40
  OFFSIDE_ENABLED := true
  SUBSTITUTION_ENABLED := true
  CIRCULAR_ENABLED := true
  FIGURE_8_ENABLED := true
  ZIGZAG_ENABLED := true
  SHAKE_ENABLED := true

/-- Smoothed classifier input (`GestureSample`): the Kalman-filtered x/y/z
triple plus the raw `beta`/`gamma` angles and the timestamp.  The nullable
`alpha` field of the source is display-only and never read by any rule, so
it is omitted. -/
structure GestureSample where
  x : ℝ
  y : ℝ
  z : ℝ
  beta : ℝ
  gamma : ℝ
  ts : ℝ

/-- The `RULES` table: per-kind predicate over the current sample, the base
sample and the threshold configuration.  All comparisons are strict, exactly
as in the source. -/
def rulePred (k : GKind) (s b : GestureSample) (t : ThresholdConfig) : Prop :=
  match k with
  | .PASS =>
      s.beta > b.beta + t.PASS_MIN ∧ s.beta < b.beta + t.PASS_MAX ∧
        |s.gamma - b.gamma| < 25
  | .SHOT => s.beta < b.beta - t.SHOT_MIN ∧ |s.gamma - b.gamma| < 25
  | .TACKLE => |s.gamma - b.gamma| > t.TACKLE_MIN ∧ |s.beta - b.beta| < 25
  | .VOICE_TAG => s.beta < -t.VOICE_TAG_THRESHOLD ∨ s.beta > t.VOICE_TAG_THRESHOLD
  | .FOUL => |s.gamma - b.gamma| > t.FOUL_GAMMA_MIN ∧ |s.beta - b.beta| > t.FOUL_BETA_MIN
  | .CORNER =>
      s.gamma > b.gamma + t.CORNER_MIN ∧ s.gamma < b.gamma + t.CORNER_MAX ∧
        |s.beta - b.beta| < 12
  | .OFFSIDE =>
      s.gamma < b.gamma - t.OFFSIDE_MIN ∧ s.gamma > b.gamma - t.OFFSIDE_MAX ∧
        |s.beta - b.beta| < 12
  | .SUBSTITUTION => |s.beta - b.beta| < 10 ∧ |s.gamma - b.gamma| < 10

/-- The `name + '_ENABLED'` lookup used by the rule loop. -/
def ruleEnabled (t : ThresholdConfig) : GKind → Bool
  | .PASS => t.PASS_ENABLED
  | .SHOT => t.SHOT_ENABLED
  | .TACKLE => t.TACKLE_ENABLED
  | .VOICE_TAG => t.VOICE_TAG_ENABLED
  | .FOUL => t.FOUL_ENABLED
  | .CORNER => t.CORNER_ENABLED
  | .OFFSIDE => t.OFFSIDE_ENABLED
  | .SUBSTITUTION => t.SUBSTITUTION_ENABLED

/-- The `FRAMES_NEEDED` table (from the CONFIG hold constants). -/
def needFrames : GKind → ℕ
  | .PASS => 3
  | .SHOT => 3
  | .TACKLE => 4
  | .VOICE_TAG => 6
  | .FOUL => 3
  | .CORNER => 4
  | .OFFSIDE => 4
  | .SUBSTITUTION => 5

/-- The iteration order of `Object.entries(RULES)`. -/
def kindOrder : List GKind :=
  [.PASS, .SHOT, .TACKLE, .VOICE_TAG, .FOUL, .CORNER, .OFFSIDE, .SUBSTITUTION]

/-- The per-rule hold counters (`cntRef.current`), one natural number per
gesture kind; a missing JS key reads as `0`. -/
structure Counts where
  cPASS : ℕ
  cSHOT : ℕ
  cTACKLE : ℕ
  cVOICE : ℕ
  cFOUL : ℕ
  cCORNER : ℕ
  cOFFSIDE : ℕ
  cSUB : ℕ

/-- The empty counter map `{}`. -/
def zeroCounts : Counts := ⟨0, 0, 0, 0, 0, 0, 0, 0⟩

/-- Read a kind's counter. -/
def getCnt (c : Counts) : GKind → ℕ
  | .PASS => c.cPASS
  | .SHOT => c.cSHOT
  | .TACKLE => c.cTACKLE
  | .VOICE_TAG => c.cVOICE
  | .FOUL => c.cFOUL
  | .CORNER => c.cCORNER
  | .OFFSIDE => c.cOFFSIDE
  | .SUBSTITUTION => c.cSUB

/-- Write a kind's counter. -/
def setCnt (c : Counts) (k : GKind) (n : ℕ) : Counts :=
  match k with
  | .PASS => { c with cPASS := n }
  | .SHOT => { c with cSHOT := n }
  | .TACKLE => { c with cTACKLE := n }
  | .VOICE_TAG => { c with cVOICE := n }
  | .FOUL => { c with cFOUL := n }
  | .CORNER => { c with cCORNER := n }
  | .OFFSIDE => { c with cOFFSIDE := n }
  | .SUBSTITUTION => { c with cSUB := n }

/-- The rule-engine loop of `onOrient`: walk the kinds in declaration order;
a matching enabled rule increments its counter and wins (breaking out of the
loop, so later counters are left untouched) once the counter reaches its
hold count; a non-matching or disabled rule has its counter reset to 0. -/
def ruleLoop (t : ThresholdConfig) (sm b : GestureSample) :
    List GKind → Counts → Option GKind × Counts
  | [], c => (none, c)
  | k :: ks, c =>
    if ruleEnabled t k = true ∧ rulePred k sm b t then
      let n := getCnt c k + 1
      if needFrames k ≤ n then (some k, setCnt c k n)
      else ruleLoop t sm b ks (setCnt c k n)
    else ruleLoop t sm b ks (setCnt c k 0)

/-! ### Pattern detection helpers -/

/-- A point of the movement-pattern window (`PatternPoint`). -/
structure PatternPoint where
  beta : ℝ
  gamma : ℝ
  ts : ℝ
  velocity : ℝ

/-- Result of one geometric matcher: a detection flag and a confidence. -/
structure MatchResult where
  detected : Prop
  confidence : ℝ

/-- `Math.atan2 y x`, modelled by the argument of the complex number
`x + y·i` (range `(-π, π]`, `atan2 0 0 = 0`, matching JS). -/
def atan2 (y x : ℝ) : ℝ := Complex.arg ((x : ℂ) + (y : ℂ) * Complex.I)

/-- The single-wrap normalisation used by `detectCircularMotion` on the
difference of consecutive angles. -/
def wrapDiff (d : ℝ) : ℝ :=
  if d > π then d - 2 * π else if d < -π then d + 2 * π else d

/-- Wrapped consecutive differences of a list of angles (the `for` loop of
`detectCircularMotion`, before taking absolute values). -/
def adjDiffs : List ℝ → List ℝ
  | [] => []
  | [_] => []
  | a :: b :: rest => wrapDiff (b - a) :: adjDiffs (b :: rest)

/-- Centroid beta of the pattern points. -/
def circCenterB (pts : List PatternPoint) : ℝ :=
  (pts.map (fun p => p.beta)).sum / pts.length

/-- Centroid gamma of the pattern points. -/
def circCenterG (pts : List PatternPoint) : ℝ :=
  (pts.map (fun p => p.gamma)).sum / pts.length

/-- Radial distances of the points from the centroid. -/
def circDists (pts : List PatternPoint) : List ℝ :=
  pts.map (fun p =>
    Real.sqrt ((p.beta - circCenterB pts) ^ 2 + (p.gamma - circCenterG pts) ^ 2))

/-- Average radial distance. -/
def circAvgDist (pts : List PatternPoint) : ℝ :=
  (circDists pts).sum / (circDists pts).length

/-- Population variance of the radial distances. -/
def circVariance (pts : List PatternPoint) : ℝ :=
  ((circDists pts).map (fun d => (d - circAvgDist pts) ^ 2)).sum /
    (circDists pts).length

/-- `consistency = 1 - min(variance / avgDist², 1)`. -/
def circConsistency (pts : List PatternPoint) : ℝ :=
  1 - min (circVariance pts / (circAvgDist pts * circAvgDist pts)) 1

/-- Angles of the points around the centroid. -/
def circAngles (pts : List PatternPoint) : List ℝ :=
  pts.map (fun p => atan2 (p.gamma - circCenterG pts) (p.beta - circCenterB pts))

/-- Cumulative swept angle: sum of absolute wrapped angle differences. -/
def circTotalAngle (pts : List PatternPoint) : ℝ :=
  ((adjDiffs (circAngles pts)).map (fun d => |d|)).sum

/-- `coverage = totalAngle / 2π`. -/
def circCoverage (pts : List PatternPoint) : ℝ :=
  circTotalAngle pts / (2 * π)

/-- The detection condition of `detectCircularMotion`. -/
def circDetected (pts : List PatternPoint) : Prop :=
  circConsistency pts > 0.6 ∧ circCoverage pts > 0.5 ∧ circAvgDist pts > 15

/-- `detectCircularMotion`. -/
def detectCircularMotion (pts : List PatternPoint) : MatchResult :=
  if pts.length < 12 then ⟨False, 0⟩
  else
    ⟨circDetected pts,
      if circDetected pts then min (circConsistency pts * circCoverage pts) 0.95
      else 0⟩

/-- `detectFigure8`: split the window in half, require both halves circular
with centroid betas offset by more than 10. -/
def detectFigure8 (pts : List PatternPoint) : MatchResult :=
  if pts.length < 16 then ⟨False, 0⟩
  else
    let mid := pts.length / 2
    let fst := pts.take mid
    let snd := pts.drop mid
    let c1 := detectCircularMotion fst
    let c2 := detectCircularMotion snd
    let off := |circCenterB fst - circCenterB snd|
    let det := c1.detected ∧ c2.detected ∧ off > 10
    ⟨det, if det then min ((c1.confidence + c2.confidence) / 2) 0.95 else 0⟩

/-- The peak counter of `detectZigzag`: three-point local extrema of the
gamma series. -/
def countPeaks : List ℝ → ℕ
  | a :: b :: c :: rest =>
      (if (b > a ∧ b > c) ∨ (b < a ∧ b < c) then 1 else 0)
        + countPeaks (b :: c :: rest)
  | _ => 0

/-- `detectZigzag`. -/
def detectZigzag (pts : List PatternPoint) : MatchResult :=
  if pts.length < 8 then ⟨False, 0⟩
  else
    let peaks := countPeaks (pts.map (fun p => p.gamma))
    let det := 3 ≤ peaks
    ⟨det, if det then min ((peaks : ℝ) / 5) 0.95 else 0⟩

/-- The rapid-sample counter of `detectShake`: points whose instantaneous
velocity exceeds 80. -/
def countRapid : List PatternPoint → ℕ
  | [] => 0
  | p :: rest => (if p.velocity > 80 then 1 else 0) + countRapid rest

/-- `detectShake`. -/
def detectShake (pts : List PatternPoint) : MatchResult :=
  if pts.length < 6 then ⟨False, 0⟩
  else
    let rapid := countRapid pts
    let det := 4 ≤ rapid
    ⟨det, if det then min ((rapid : ℝ) / 6) 0.95 else 0⟩

/-- A candidate entry of the `patterns` array: a name, a detection flag and
a confidence (the reduce's initial element has no name). -/
structure Cand where
  name : Option PName
  detected : Prop
  confidence : ℝ

/-- The `patterns` array filtered to the enabled matchers, in declaration
order CIRCULAR, FIGURE_8, ZIGZAG, SHAKE. -/
def candList (t : ThresholdConfig) (pts : List PatternPoint) : List Cand :=
  (if t.CIRCULAR_ENABLED then
      [⟨some .CIRCULAR, (detectCircularMotion pts).detected,
        (detectCircularMotion pts).confidence⟩]
    else []) ++
  (if t.FIGURE_8_ENABLED then
      [⟨some .FIGURE_8, (detectFigure8 pts).detected, (detectFigure8 pts).confidence⟩]
    else []) ++
  (if t.ZIGZAG_ENABLED then
      [⟨some .ZIGZAG, (detectZigzag pts).detected, (detectZigzag pts).confidence⟩]
    else []) ++
  (if t.SHAKE_ENABLED then
      [⟨some .SHAKE, (detectShake pts).detected, (detectShake pts).confidence⟩]
    else [])

/-- The `reduce` selecting the candidate of strictly highest confidence,
seeded with `{confidence: 0, detected: false}`. -/
def bestPattern (t : ThresholdConfig) (pts : List PatternPoint) : Cand :=
  (candList t pts).foldl
    (fun m p => if p.confidence > m.confidence then p else m) ⟨none, False, 0⟩

/-! ### Jitter zone and learning -/

/-- The learned `JitterZone`. -/
structure JitterZone where
  centerBeta : ℝ
  centerGamma : ℝ
  radiusBeta : ℝ
  radiusGamma : ℝ

/-- `isOutsideJitterZone`: fail-open when no zone is learned. -/
def isOutsideZone (z : Option JitterZone) (beta gamma : ℝ) : Prop :=
  match z with
  | none => True
  | some j =>
      |beta - j.centerBeta| > j.radiusBeta ∨ |gamma - j.centerGamma| > j.radiusGamma

/-- `CONFIG.JITTER_MARGIN`. -/
def jitterMargin : ℝ := 1.5

/-- The zone computed by `finishLearning` from the collected samples
(mean center; per-axis radius `sqrt(population variance) * 1.5`, clamped
below by 5). -/
def learnZone (samples : List (ℝ × ℝ)) : JitterZone :=
  let n : ℝ := samples.length
  let centerBeta := (samples.map (fun s => s.1)).sum / n
  let centerGamma := (samples.map (fun s => s.2)).sum / n
  let varBeta := (samples.map (fun s => (s.1 - centerBeta) ^ 2)).sum / n
  let varGamma := (samples.map (fun s => (s.2 - centerGamma) ^ 2)).sum / n
  { centerBeta := centerBeta
    centerGamma := centerGamma
    radiusBeta := max (Real.sqrt varBeta * jitterMargin) 5
    radiusGamma := max (Real.sqrt varGamma * jitterMargin) 5 }

/-- `finishLearning` as a function of the collected samples: `none` when
fewer than 5 samples were collected (silent abort), otherwise the learned
zone. -/
def finishLearningZone (samples : List (ℝ × ℝ)) : Option JitterZone :=
  if samples.length < 5 then none else some (learnZone samples)

/-! ### Engine state and step function -/

/-- One processed orientation sample (beta, gamma, timestamp). -/
structure Orient where
  beta : ℝ
  gamma : ℝ
  ts : ℝ

/-- All engine refs/state of the component that influence detection. -/
structure EngineState where
  kalX : Kalman1D
  kalY : Kalman1D
  kalZ : Kalman1D
  base : Option GestureSample
  cnt : Counts
  lastGesture : Option GKind
  cooldown : ℝ
  patternHistory : List PatternPoint
  jitterZone : Option JitterZone
  isLearning : Bool
  learningSamples : List (ℝ × ℝ)
  learningStart : ℝ

/-- An emitted classification for one frame: either an accepted
instantaneous gesture (its event, when added, carries the `addEvent`
default confidence 0.95; the VOICE_TAG winner adds no event but still
latches and cools down), or an accepted movement pattern with its computed
confidence. -/
inductive Outcome
  | ges (k : GKind) (ts : ℝ)
  | pat (p : Option PName) (conf : ℝ) (ts : ℝ)

/-- Timestamp at which an outcome fired. -/
def Outcome.ts : Outcome → ℝ
  | .ges _ t => t
  | .pat _ _ t => t

/-- The confidence stored on the emitted event: `addEvent`'s default 0.95
for instantaneous gestures, the matcher confidence for patterns. -/
def Outcome.confidence : Outcome → ℝ
  | .ges _ _ => 0.95
  | .pat _ c _ => c

/-- `o` is an accepted instantaneous gesture of kind `k`. -/
def isGesOf (o : Option Outcome) (k : GKind) : Prop :=
  ∃ ts, o = some (Outcome.ges k ts)

/-- `o` is an accepted instantaneous gesture of some kind other than `k`. -/
def isOtherGes (o : Option Outcome) (k : GKind) : Prop :=
  ∃ k2 ts, k2 ≠ k ∧ o = some (Outcome.ges k2 ts)

/-- `o` is an accepted instantaneous gesture (of any kind). -/
def isGes (o : Option Outcome) : Prop :=
  ∃ k ts, o = some (Outcome.ges k ts)

/-- `startLearning`: enter learning, clear the sample buffer, record the
start time, and clear the current jitter zone. -/
def startLearning (s : EngineState) (now : ℝ) : EngineState :=
  { s with isLearning := true, learningSamples := [], learningStart := now,
           jitterZone := none }

/-- `finishLearning` on the whole state: silently abort (early return) below
5 samples, otherwise install the learned zone; either way leave learning
mode. -/
def finishLearning (s : EngineState) : EngineState :=
  if s.learningSamples.length < 5 then { s with isLearning := false }
  else { s with isLearning := false,
                jitterZone := some (learnZone s.learningSamples) }

/-- The new `PatternPoint` built for the current frame: raw beta/gamma, the
current timestamp, and the Euclidean angular velocity against the previous
point of the (unpruned) history. -/
def newPointOf (s : EngineState) (i : Orient) : PatternPoint :=
  match s.patternHistory.getLast? with
  | none => ⟨i.beta, i.gamma, i.ts, 0⟩
  | some pp =>
      ⟨i.beta, i.gamma, i.ts,
        Real.sqrt ((i.beta - pp.beta) ^ 2 + (i.gamma - pp.gamma) ^ 2) /
          ((i.ts - pp.ts) / 1000)⟩

/-- Evict points older than `CONFIG.PATTERN_WINDOW_MS = 2000`. -/
def pruneWindow (now : ℝ) : List PatternPoint → List PatternPoint
  | [] => []
  | p :: rest =>
      if now - p.ts < 2000 then p :: pruneWindow now rest else pruneWindow now rest

/-- The `updatedHistory` of the frame: append the new point, then filter by
the 2-second window. -/
def updatedHistory (s : EngineState) (i : Orient) : List PatternPoint :=
  pruneWindow i.ts (s.patternHistory ++ [newPointOf s i])

/-- The acceptance condition of the pattern block: best candidate detected,
confidence above 0.7, and the cooldown deadline passed. -/
def acceptPattern (t : ThresholdConfig) (pts : List PatternPoint)
    (now cool : ℝ) : Prop :=
  (bestPattern t pts).detected ∧ (bestPattern t pts).confidence > 0.7 ∧ now > cool

/-- The instantaneous-classifier tail of the frame: Kalman-smooth, freeze
the base sample if absent, honour the cooldown, run the rule loop, and
apply the last-gesture lockout before firing. -/
def classify (t : ThresholdConfig) (s : EngineState) (i : Orient) :
    EngineState × Option Outcome :=
  let kx := s.kalX.update i.beta
  let ky := s.kalY.update i.gamma
  let kz := s.kalZ.update 0
  let sample : GestureSample := ⟨kx.2, ky.2, kz.2, i.beta, i.gamma, i.ts⟩
  let s2 := { s with kalX := kx.1, kalY := ky.1, kalZ := kz.1 }
  let b := s2.base.getD sample
  let s3 := { s2 with base := some b }
  if i.ts < s3.cooldown then (s3, none)
  else
    let rl := ruleLoop t sample b kindOrder s3.cnt
    let s4 := { s3 with cnt := rl.2 }
    match rl.1 with
    | none => (s4, none)
    | some w =>
        if s4.lastGesture = some w then (s4, none)
        else ({ s4 with cooldown := i.ts + 700, lastGesture := some w },
              some (Outcome.ges w i.ts))

/-- One full frame of `onOrient` (after downsampling): learning phase,
jitter-zone gate (resetting all hold counters while inside the zone),
pattern-window update, pattern arbitration/acceptance, then the
instantaneous classifier.  `COOLDOWN_MS = 700`,
`PATTERN_MIN_SAMPLES = 8`, `LEARNING_DURATION_MS = 2000`. -/
def step (t : ThresholdConfig) (s : EngineState) (i : Orient) :
    EngineState × Option Outcome :=
  if s.isLearning then
    let s1 := { s with learningSamples := s.learningSamples ++ [(i.beta, i.gamma)] }
    if (1 : ℝ) ≤ min ((i.ts - s.learningStart) / 2000) 1 then (finishLearning s1, none)
    else (s1, none)
  else if isOutsideZone s.jitterZone i.beta i.gamma then
    let hist := updatedHistory s i
    let s1 := { s with patternHistory := hist }
    if 8 ≤ hist.length ∧ acceptPattern t hist i.ts s.cooldown then
      ({ s1 with patternHistory := [], cooldown := i.ts + 700 },
        some (Outcome.pat (bestPattern t hist).name
          (bestPattern t hist).confidence i.ts))
    else classify t s1 i
  else ({ s with cnt := zeroCounts }, none)

/-- Run the engine over a list of frames, collecting the final state and
the per-frame outputs in order. -/
def runSteps (t : ThresholdConfig) (s : EngineState) :
    List Orient → EngineState × List (Option Outcome)
  | [] => (s, [])
  | i :: is =>
      let r := step t s i
      let rest := runSteps t r.1 is
      (rest.1, r.2 :: rest.2)

/-- The per-frame outputs of a run. -/
def runOutputs (t : ThresholdConfig) (s : EngineState) (l : List Orient) :
    List (Option Outcome) :=
  (runSteps t s l).2

/-! ### Spec-side definitions (for refinement claims) -/

/-- Samples of the spec's jitter-zone test vector. -/
def c5Samples : List (ℝ × ℝ) :=
  [(0, 0), (1, -1), (-1, 1), (0.5, -0.5), (-0.5, 0.5)]

/-- The jitter zone as worded by the specification: center = arithmetic mean
of the samples, each per-axis radius = 1.5 times the population standard
deviation of that axis, floor-clamped to 5 degrees. -/
def specZone (samples : List (ℝ × ℝ)) : JitterZone :=
  let n : ℝ := samples.length
  let meanB := (samples.map (fun s => s.1)).sum / n
  let meanG := (samples.map (fun s => s.2)).sum / n
  let stdB := Real.sqrt ((samples.map (fun s => (s.1 - meanB) ^ 2)).sum / n)
  let stdG := Real.sqrt ((samples.map (fun s => (s.2 - meanG) ^ 2)).sum / n)
  { centerBeta := meanB
    centerGamma := meanG
    radiusBeta := max (1.5 * stdB) 5
    radiusGamma := max (1.5 * stdG) 5 }

/-! ### Kalman filter analysis (claim C9) -/

/-- Closed form of the covariance recurrence: for nonnegative `p`, one
update sends `p` to `(p + q) r / (p + q + r)`. -/
lemma kalStep_p (s : Kalman1D) (m : ℝ) (h : 0 ≤ s.p) :
    (s.update m).1.p = (s.p + 0.003) * 0.25 / (s.p + 0.003 + 0.25) := by
  have hd : (0 : ℝ) < s.p + 0.003 + 0.25 := by linarith
  simp only [Kalman1D.update, kalmanQ, kalmanR]
  field_simp

/-- Closed form of the estimate recurrence. -/
lemma kalStep_x (s : Kalman1D) (m : ℝ) :
    (s.update m).1.x =
      s.x + (s.p + 0.003) / (s.p + 0.003 + 0.25) * (m - s.x) := rfl

/-- All the per-step facts about the covariance map
`p ↦ (p + q) r / (p + q + r)` under the invariant `p² + q·p ≤ q·r`:
nonnegativity, preservation of the invariant, and monotone growth. -/
lemma kal_p_step_facts (p : ℝ) (hp : 0 ≤ p)
    (hinv : p ^ 2 + p * 0.003 ≤ 0.00075) :
    0 ≤ (p + 0.003) * 0.25 / (p + 0.003 + 0.25) ∧
    ((p + 0.003) * 0.25 / (p + 0.003 + 0.25)) ^ 2 +
        ((p + 0.003) * 0.25 / (p + 0.003 + 0.25)) * 0.003 ≤ 0.00075 ∧
    p ≤ (p + 0.003) * 0.25 / (p + 0.003 + 0.25) := by
  have hd : (0 : ℝ) < p + 0.003 + 0.25 := by linarith
  have hd2 : (0 : ℝ) < (p + 0.003 + 0.25) ^ 2 := by positivity
  refine ⟨by positivity, ?_, ?_⟩
  · rw [div_pow, div_mul_eq_mul_div,
      div_add_div _ _ (ne_of_gt hd2) (ne_of_gt hd), div_le_iff₀ (by positivity)]
    nlinarith [hinv, hp]
  · rw [le_div_iff₀ hd]
    nlinarith [hinv]

/-- Invariant of the covariance sequence for a fresh filter:
`0 ≤ pₙ` and `pₙ² + q·pₙ ≤ q·r` for every `n`. -/
lemma kal_inv (m : ℝ) :
    ∀ n, 0 ≤ (kalSeq m n).p ∧
      (kalSeq m n).p ^ 2 + (kalSeq m n).p * 0.003 ≤ 0.00075 := by
  intro n
  induction n with
  | zero => norm_num [kalSeq]
  | succ n ih =>
      have hstep : (kalSeq m (n + 1)).p =
          ((kalSeq m n).p + 0.003) * 0.25 / ((kalSeq m n).p + 0.003 + 0.25) :=
        kalStep_p (kalSeq m n) m ih.1
      rw [hstep]
      exact ⟨(kal_p_step_facts _ ih.1 ih.2).1, (kal_p_step_facts _ ih.1 ih.2).2.1⟩

/-- One update contracts the distance of the estimate to a constant input
by the factor `r / (p + q + r)`. -/
lemma kal_x_step (m : ℝ) (n : ℕ) :
    (kalSeq m (n + 1)).x - m =
      (0.25 / ((kalSeq m n).p + 0.003 + 0.25)) * ((kalSeq m n).x - m) := by
  have hp := (kal_inv m n).1
  have hd : (0 : ℝ) < (kalSeq m n).p + 0.003 + 0.25 := by linarith
  have hx : (kalSeq m (n + 1)).x =
      (kalSeq m n).x + ((kalSeq m n).p + 0.003) / ((kalSeq m n).p + 0.003 + 0.25) *
        (m - (kalSeq m n).x) := kalStep_x (kalSeq m n) m
  rw [hx]
  field_simp
  ring

/-- The geometric decay of the estimate error: since `p ≥ 0`, the
contraction factor is at most `0.25 / 0.253 = 250/253`. -/
lemma kal_x_decay (m : ℝ) (n : ℕ) :
    |(kalSeq m n).x - m| ≤ (250 / 253) ^ n * |m| := by
  induction n with
  | zero =>
      simp [kalSeq]
  | succ n ih =>
      have hp := (kal_inv m n).1
      have hd : (0 : ℝ) < (kalSeq m n).p + 0.003 + 0.25 := by linarith
      have hc : (0 : ℝ) < 0.25 / ((kalSeq m n).p + 0.003 + 0.25) := by positivity
      have hcb : 0.25 / ((kalSeq m n).p + 0.003 + 0.25) ≤ 250 / 253 := by
        rw [div_le_div_iff₀ hd (by norm_num)]
        nlinarith [hp]
      calc |(kalSeq m (n + 1)).x - m|
          = (0.25 / ((kalSeq m n).p + 0.003 + 0.25)) * |(kalSeq m n).x - m| := by
            rw [kal_x_step, abs_mul, abs_of_pos hc]
        _ ≤ (250 / 253) * ((250 / 253) ^ n * |m|) := by
            apply mul_le_mul hcb ih (abs_nonneg _)
            norm_num
        _ = (250 / 253) ^ (n + 1) * |m| := by ring

/-- Claim C9, counterexample: feeding the constant input `1` to a fresh
`Kalman1D` (initial state `p = 0, x = 0`), the error covariance after the
first update is strictly larger than before it (`3/1012 > 0`), so the
sequence of error covariances is not non-increasing, refuting the claim at
the concrete input `m = 1`, `N = 1`. -/
theorem kalman_p_not_nonincreasing : ¬ ((kalSeq 1 1).p ≤ (kalSeq 1 0).p) := by
  have h0 : (kalSeq 1 0).p = 0 := rfl
  have h1 : (kalSeq 1 1).p = 0.003 * (1 - 0.003 / (0.003 + 0.25)) := by
    show ((kalSeq 1 0).update 1).1.p = _
    simp only [kalSeq, Kalman1D.update, kalmanQ, kalmanR]
    norm_num
  rw [h0, h1]
  norm_num

/-- Claim C9 (amended): for every constant input `m` fed to `Kalman1D.update`
starting from the initial state `p = 0, x = 0`, the estimates converge
monotonically toward `m` (the distance to `m` never increases, and the
estimate sequence tends to `m`), while the error covariance `p` is
non-DECREASING across the updates (it grows from 0 toward its steady state;
the claim's direction is reversed). -/
theorem kalman_monotone_convergence (m : ℝ) :
    (∀ n, |(kalSeq m (n + 1)).x - m| ≤ |(kalSeq m n).x - m|) ∧
    (∀ n, (kalSeq m n).p ≤ (kalSeq m (n + 1)).p) ∧
    Filter.Tendsto (fun n => (kalSeq m n).x) Filter.atTop (nhds m) := by
  refine ⟨?_, ?_, ?_⟩
  · intro n
    have hp := (kal_inv m n).1
    have hd : (0 : ℝ) < (kalSeq m n).p + 0.003 + 0.25 := by linarith
    have hc : (0 : ℝ) < 0.25 / ((kalSeq m n).p + 0.003 + 0.25) := by positivity
    have hc1 : 0.25 / ((kalSeq m n).p + 0.003 + 0.25) ≤ 1 := by
      rw [div_le_one hd]
      linarith
    rw [kal_x_step, abs_mul, abs_of_pos hc]
    exact mul_le_of_le_one_left (abs_nonneg _) hc1
  · intro n
    have hstep : (kalSeq m (n + 1)).p =
        ((kalSeq m n).p + 0.003) * 0.25 / ((kalSeq m n).p + 0.003 + 0.25) :=
      kalStep_p (kalSeq m n) m (kal_inv m n).1
    rw [hstep]
    exact (kal_p_step_facts _ (kal_inv m n).1 (kal_inv m n).2).2.2
  · have hg : Filter.Tendsto (fun n : ℕ => (250 / 253 : ℝ) ^ n * |m|)
        Filter.atTop (nhds 0) := by
      have := (tendsto_pow_atTop_nhds_zero_of_lt_one
        (by norm_num : (0 : ℝ) ≤ 250 / 253) (by norm_num)).mul_const |m|
      simpa using this
    have hsq : Filter.Tendsto (fun n => |(kalSeq m n).x - m|)
        Filter.atTop (nhds 0) :=
      squeeze_zero (fun n => abs_nonneg _) (fun n => kal_x_decay m n) hg
    rw [tendsto_iff_dist_tendsto_zero]
    simpa [Real.dist_eq] using hsq

/-! ### Jitter-zone learning (claims C5, C6) -/

/-- The source's learned zone and the spec's worded zone coincide (same
mean center; `sqrt(var) * 1.5` versus `1.5 * std`; same 5-degree floor). -/
lemma learnZone_eq_specZone (samples : List (ℝ × ℝ)) :
    learnZone samples = specZone samples := by
  simp only [learnZone, specZone, jitterMargin]
  rw [JitterZone.mk.injEq]
  refine ⟨rfl, rfl, ?_, ?_⟩ <;> rw [mul_comm]

/-- A learning state holding the spec's five synthetic still samples. -/
def c5State : EngineState :=
  ⟨⟨0, 0⟩, ⟨0, 0⟩, ⟨0, 0⟩, none, zeroCounts, none, 0, [], none, true, c5Samples, 0⟩

/-- Claim C5: when learning finishes with at least 5 collected samples,
`finishLearning` installs the zone described by the spec (mean center,
1.5 × population standard deviation per axis, 5-degree floor); on the
concrete sample set {(0,0), (1,-1), (-1,1), (0.5,-0.5), (-0.5,0.5)} this
yields center (0,0) and both radii equal to the 5-degree floor. -/
theorem finishLearning_matches_spec :
    (∀ s : EngineState, 5 ≤ s.learningSamples.length →
      (finishLearning s).jitterZone = some (specZone s.learningSamples) ∧
      (finishLearning s).isLearning = false) ∧
    finishLearningZone c5Samples = some ⟨0, 0, 5, 5⟩ := by
  constructor
  · intro s h5
    have hnz : ¬ (s.learningSamples.length < 5) := by omega
    rw [finishLearning, if_neg hnz, learnZone_eq_specZone]
    exact ⟨rfl, rfl⟩
  · have h1 : Real.sqrt (1 / 2 : ℝ) ≤ 1 := by
      rw [show (1 : ℝ) = Real.sqrt 1 from Real.sqrt_one.symm]
      exact Real.sqrt_le_sqrt (by norm_num)
    have h1b : (0 : ℝ) ≤ Real.sqrt (1 / 2) := Real.sqrt_nonneg _
    rw [finishLearningZone, if_neg (by norm_num [c5Samples])]
    rw [Option.some.injEq]
    have hvB : learnZone c5Samples =
        ⟨0, 0, max (Real.sqrt (1 / 2) * 1.5) 5, max (Real.sqrt (1 / 2) * 1.5) 5⟩ := by
      simp only [learnZone, jitterMargin, c5Samples]
      norm_num
    rw [hvB, JitterZone.mk.injEq]
    refine ⟨rfl, rfl, ?_, ?_⟩ <;>
      · rw [max_eq_right]
        nlinarith [h1, h1b]

/-- Witness for claim C5's theorem at the concrete learning state. -/
theorem finishLearning_matches_spec_witness :
    (finishLearning c5State).jitterZone = some (specZone c5Samples) ∧
    (finishLearning c5State).isLearning = false := by
  have h := finishLearning_matches_spec.1 c5State (by simp [c5State, c5Samples])
  exact ⟨h.1, h.2⟩

/-- A previously learned zone, in effect before a recalibration attempt. -/
def c6PrevZone : JitterZone := ⟨1, 2, 3, 4⟩

/-- Engine state with `c6PrevZone` in effect, before recalibration. -/
def c6State : EngineState :=
  ⟨⟨0, 0⟩, ⟨0, 0⟩, ⟨0, 0⟩, none, zeroCounts, none, 0, [], some c6PrevZone,
    false, [], 0⟩

/-- A learning run that collects only 3 samples before the 2-second
learning window elapses. -/
def c6Inputs : List Orient := [⟨0, 0, 500⟩, ⟨0, 0, 1000⟩, ⟨0, 0, 2100⟩]

/-- Claim C6, counterexample: starting from a state whose learned zone is
`c6PrevZone` and running a learning attempt (`startLearning` at time 0,
then three frames, the last of which completes the 2-second window with
only 3 < 5 samples), the learning aborts with NO zone in effect — the
previous zone does not remain, because `startLearning` cleared it. -/
theorem learning_abort_loses_zone :
    c6State.jitterZone = some c6PrevZone ∧
    (runSteps defaultThresholds (startLearning c6State 0) c6Inputs).1.jitterZone
      = none ∧
    (runSteps defaultThresholds (startLearning c6State 0) c6Inputs).1.isLearning
      = false ∧
    runOutputs defaultThresholds (startLearning c6State 0) c6Inputs
      = [none, none, none] := by
  refine ⟨rfl, ?_, ?_, ?_⟩ <;>
    norm_num [runSteps, runOutputs, step, startLearning, finishLearning,
      c6State, c6Inputs, min_def]

/-- Claim C6 (amended): a learning attempt that collects fewer than 5
samples aborts silently — `finishLearning` merely leaves learning mode and
changes nothing else — but the zone that is then in effect is the one
`startLearning` left behind, which is NO zone at all (`startLearning`
clears the previous zone), not the previously learned zone. -/
theorem learning_abort_silent :
    (∀ (s : EngineState) (now : ℝ),
      (startLearning s now).jitterZone = none ∧
      (startLearning s now).isLearning = true) ∧
    (∀ s : EngineState, s.learningSamples.length < 5 →
      finishLearning s = { s with isLearning := false }) := by
  constructor
  · intro s now
    exact ⟨rfl, rfl⟩
  · intro s h
    rw [finishLearning, if_pos h]

/-- Witness for claim C6's amended theorem: a state with 3 collected
samples aborts into the same state with learning off (zone untouched, here
`none` after a `startLearning`). -/
theorem learning_abort_silent_witness :
    (startLearning c6State 0).jitterZone = none ∧
    finishLearning { startLearning c6State 0 with
        learningSamples := [(0, 0), (0, 0), (0, 0)] } =
      { startLearning c6State 0 with
        learningSamples := [(0, 0), (0, 0), (0, 0)], isLearning := false } := by
  refine ⟨(learning_abort_silent.1 c6State 0).1, ?_⟩
  exact learning_abort_silent.2 _ (by simp [startLearning])

/-! ### The pattern window carries raw angles (claim C8) -/

/-- The new point always carries the current timestamp. -/
lemma newPointOf_ts (s : EngineState) (i : Orient) :
    (newPointOf s i).ts = i.ts := by
  cases h : s.patternHistory.getLast? <;> simp [newPointOf, h]

/-- Pruning keeps an appended point that is inside the window. -/
lemma pruneWindow_append_keep (now : ℝ) (l : List PatternPoint)
    (p : PatternPoint) (h : now - p.ts < 2000) :
    pruneWindow now (l ++ [p]) = pruneWindow now l ++ [p] := by
  induction l with
  | nil => simp [pruneWindow, h]
  | cons q rest ih =>
      simp only [List.cons_append, pruneWindow]
      split <;> simp [ih]

/-- Claim C8 (amended): every point appended to the movement-pattern
window carries the RAW sensor beta and gamma of the current frame (the
Kalman-smoothed estimates are computed only later, for the classifier
sample's x/y/z fields), and the appended point is the last element of the
window handed to the matchers. -/
theorem pattern_point_uses_raw (s : EngineState) (i : Orient) :
    (newPointOf s i).beta = i.beta ∧ (newPointOf s i).gamma = i.gamma ∧
    (updatedHistory s i).getLast? = some (newPointOf s i) := by
  refine ⟨?_, ?_, ?_⟩
  · cases h : s.patternHistory.getLast? <;> simp [newPointOf, h]
  · cases h : s.patternHistory.getLast? <;> simp [newPointOf, h]
  · rw [updatedHistory,
      pruneWindow_append_keep i.ts _ _ (by rw [newPointOf_ts]; norm_num)]
    exact List.getLast?_concat _

/-- A fresh active state (no zone learned, fresh filters). -/
def c8State : EngineState :=
  ⟨⟨0, 0⟩, ⟨0, 0⟩, ⟨0, 0⟩, none, zeroCounts, none, 0, [], none, false, [], 0⟩

/-- One frame with raw beta 10. -/
def c8Input : Orient := ⟨10, 0, 1000⟩

/-- Claim C8, counterexample: on a concrete frame with raw beta 10 and a
fresh Kalman filter, the point the step appends to the pattern window has
beta = 10 (the raw angle), while the frame's Kalman-smoothed beta estimate
is 30/253 ≈ 0.119 — so the appended point does NOT carry the smoothed
estimate. -/
theorem pattern_point_not_smoothed :
    ((step defaultThresholds c8State c8Input).1.patternHistory).getLast?
        = some (newPointOf c8State c8Input) ∧
    (newPointOf c8State c8Input).beta = 10 ∧
    (c8State.kalX.update c8Input.beta).2 = 30 / 253 ∧
    (10 : ℝ) ≠ 30 / 253 := by
  refine ⟨?_, ?_, ?_, by norm_num⟩
  · norm_num [step, classify, updatedHistory, newPointOf, pruneWindow,
      isOutsideZone, ruleLoop, rulePred, ruleEnabled, getCnt, setCnt,
      zeroCounts, kindOrder, needFrames, Kalman1D.update, kalmanQ, kalmanR,
      defaultThresholds, c8State, c8Input]
  · norm_num [newPointOf, c8State, c8Input]
  · norm_num [Kalman1D.update, kalmanQ, kalmanR, c8State, c8Input]

/-! ### Structural lemmas about one engine frame -/

/-- The classifier tail either stays silent (cooldown, no winner, or the
last-gesture lockout), leaving cooldown and latch untouched, or fires an
enabled winner that was not the latched gesture, latching it, starting the
cooldown at `ts + 700`, and doing so only at or after the previous cooldown
deadline. -/
lemma classify_cases (t : ThresholdConfig) (s : EngineState) (i : Orient) :
    ((classify t s i).2 = none ∧ (classify t s i).1.cooldown = s.cooldown ∧
      (classify t s i).1.lastGesture = s.lastGesture) ∨
    (∃ w, (classify t s i).2 = some (Outcome.ges w i.ts) ∧
      s.lastGesture ≠ some w ∧ (classify t s i).1.lastGesture = some w ∧
      (classify t s i).1.cooldown = i.ts + 700 ∧ s.cooldown ≤ i.ts) := by
  simp only [classify]
  split
  · exact Or.inl ⟨rfl, rfl, rfl⟩
  · rename_i hcool
    split
    · exact Or.inl ⟨rfl, rfl, rfl⟩
    · rename_i w hw
      split
      · rename_i hlast
        exact Or.inl ⟨rfl, rfl, rfl⟩
      · rename_i hlast
        exact Or.inr ⟨w, rfl, hlast, rfl, rfl, not_lt.mp hcool⟩

/-- The classifier tail never touches learning state, zone, pattern window
or base-someness, and it leaves an already-frozen base alone. -/
lemma classify_fields (t : ThresholdConfig) (s : EngineState) (i : Orient) :
    (classify t s i).1.isLearning = s.isLearning ∧
    (classify t s i).1.jitterZone = s.jitterZone ∧
    (classify t s i).1.patternHistory = s.patternHistory ∧
    (classify t s i).1.learningSamples = s.learningSamples ∧
    (∀ b, s.base = some b → (classify t s i).1.base = some b) := by
  simp only [classify]
  split
  · refine ⟨rfl, rfl, rfl, rfl, ?_⟩
    intro b hb
    simp [hb]
  · split
    · refine ⟨rfl, rfl, rfl, rfl, ?_⟩
      intro b hb
      simp [hb]
    · split
      · refine ⟨rfl, rfl, rfl, rfl, ?_⟩
        intro b hb
        simp [hb]
      · refine ⟨rfl, rfl, rfl, rfl, ?_⟩
        intro b hb
        simp [hb]

/-- A frame while inside the jitter zone: reset all hold counters, emit
nothing, change nothing else. -/
lemma step_inside (t : ThresholdConfig) (s : EngineState) (i : Orient)
    (hL : s.isLearning = false)
    (hIn : ¬ isOutsideZone s.jitterZone i.beta i.gamma) :
    step t s i = ({ s with cnt := zeroCounts }, none) := by
  simp [step, hL, hIn]

/-- A frame outside the zone that does not accept a pattern proceeds to the
classifier on the state with the refreshed pattern window. -/
lemma step_to_classify (t : ThresholdConfig) (s : EngineState) (i : Orient)
    (hL : s.isLearning = false)
    (hOut : isOutsideZone s.jitterZone i.beta i.gamma)
    (hNoPat : ¬ (8 ≤ (updatedHistory s i).length ∧
      acceptPattern t (updatedHistory s i) i.ts s.cooldown)) :
    step t s i = classify t { s with patternHistory := updatedHistory s i } i := by
  simp [step, hL, hOut, hNoPat]

/-- A frame outside the zone that accepts a pattern: the window is cleared
entirely, the shared cooldown restarts, the pattern event is emitted with
the best matcher's name and confidence, and nothing else changes (in
particular the hold counters and the Kalman filters are untouched). -/
lemma step_pattern_accept (t : ThresholdConfig) (s : EngineState) (i : Orient)
    (hL : s.isLearning = false)
    (hOut : isOutsideZone s.jitterZone i.beta i.gamma)
    (hLen : 8 ≤ (updatedHistory s i).length)
    (hAcc : acceptPattern t (updatedHistory s i) i.ts s.cooldown) :
    step t s i = ({ s with patternHistory := [], cooldown := i.ts + 700 },
      some (Outcome.pat (bestPattern t (updatedHistory s i)).name
        (bestPattern t (updatedHistory s i)).confidence i.ts)) := by
  simp [step, hL, hOut, hLen, hAcc]

/-- A learning frame emits nothing and leaves cooldown, latch, counters,
base and zone-irrelevant fields alone except the learning bookkeeping. -/
lemma step_learning_out (t : ThresholdConfig) (s : EngineState) (i : Orient)
    (hL : s.isLearning = true) :
    (step t s i).2 = none ∧ (step t s i).1.cooldown = s.cooldown ∧
    (step t s i).1.lastGesture = s.lastGesture ∧
    (step t s i).1.cnt = s.cnt := by
  simp only [step, hL, if_true]
  split
  · rw [finishLearning]
    split <;> exact ⟨rfl, rfl, rfl, rfl⟩
  · exact ⟨rfl, rfl, rfl, rfl⟩

/-- The cooldown deadline never decreases across a frame. -/
lemma step_cooldown_mono (t : ThresholdConfig) (s : EngineState) (i : Orient) :
    s.cooldown ≤ (step t s i).1.cooldown := by
  by_cases hL : s.isLearning
  · rw [(step_learning_out t s i hL).2.1]
  · rw [Bool.not_eq_true] at hL
    by_cases hOut : isOutsideZone s.jitterZone i.beta i.gamma
    · by_cases hPat : 8 ≤ (updatedHistory s i).length ∧
        acceptPattern t (updatedHistory s i) i.ts s.cooldown
      · rw [step_pattern_accept t s i hL hOut hPat.1 hPat.2]
        have := hPat.2.2.2
        simp only []
        linarith
      · rw [step_to_classify t s i hL hOut hPat]
        rcases classify_cases t { s with patternHistory := updatedHistory s i } i
          with ⟨_, hc, _⟩ | ⟨w, _, _, _, hc, hle⟩
        · rw [hc]
        · rw [hc]
          simp only [] at hle
          linarith
    · rw [step_inside t s i hL hOut]

/-- Every emitted outcome fires at the frame's timestamp, at or after the
previous cooldown deadline, and restarts the cooldown at `ts + 700`. -/
lemma step_emit (t : ThresholdConfig) (s : EngineState) (i : Orient)
    (o : Outcome) (h : (step t s i).2 = some o) :
    o.ts = i.ts ∧ s.cooldown ≤ i.ts ∧
    (step t s i).1.cooldown = i.ts + 700 := by
  by_cases hL : s.isLearning
  · exact absurd ((step_learning_out t s i hL).1.symm.trans h) (by simp)
  · rw [Bool.not_eq_true] at hL
    by_cases hOut : isOutsideZone s.jitterZone i.beta i.gamma
    · by_cases hPat : 8 ≤ (updatedHistory s i).length ∧
        acceptPattern t (updatedHistory s i) i.ts s.cooldown
      · rw [step_pattern_accept t s i hL hOut hPat.1 hPat.2] at h ⊢
        simp only [Option.some.injEq] at h
        subst h
        exact ⟨rfl, le_of_lt hPat.2.2.2, rfl⟩
      · rw [step_to_classify t s i hL hOut hPat] at h ⊢
        rcases classify_cases t { s with patternHistory := updatedHistory s i } i
          with ⟨h0, _, _⟩ | ⟨w, hw, _, _, hc, hle⟩
        · exact absurd (h0.symm.trans h) (by simp)
        · rw [hw] at h
          simp only [Option.some.injEq] at h
          subst h
          exact ⟨rfl, hle, hc⟩
    · rw [step_inside t s i hL hOut] at h
      exact absurd h (by simp)

/-- Unfolding a run one frame. -/
lemma runOutputs_cons (t : ThresholdConfig) (s : EngineState) (i : Orient)
    (l : List Orient) :
    runOutputs t s (i :: l) = (step t s i).2 :: runOutputs t (step t s i).1 l := rfl

/-- An empty run has no outputs. -/
lemma runOutputs_nil (t : ThresholdConfig) (s : EngineState) :
    runOutputs t s [] = [] := rfl

/-! ### Cooldown exclusivity (claim C2) -/

/-- Any outcome emitted during a run fires at or after the cooldown
deadline the run started with. -/
lemma run_emit_ge_cooldown (t : ThresholdConfig) :
    ∀ (l : List Orient) (s : EngineState) (j : ℕ) (o : Outcome),
      (runOutputs t s l)[j]? = some (some o) → s.cooldown ≤ o.ts := by
  intro l
  induction l with
  | nil =>
      intro s j o h
      simp [runOutputs_nil] at h
  | cons i rest ih =>
      intro s j o h
      rw [runOutputs_cons] at h
      cases j with
      | zero =>
          simp only [List.getElem?_cons_zero, Option.some.injEq] at h
          have he := step_emit t s i o h
          rw [he.1]
          exact he.2.1
      | succ j =>
          simp only [List.getElem?_cons_succ] at h
          exact le_trans (step_cooldown_mono t s i) (ih _ j o h)

/-- Claim C2: after any outcome (instantaneous gesture or pattern) fires at
time T during a run, every later outcome of the run — of any kind — fires
at time T + 700 (COOLDOWN_MS) or later; in particular no event fires again
before T + 700, even if a rule's hold count is then satisfied. -/
theorem cooldown_exclusivity (t : ThresholdConfig) :
    ∀ (l : List Orient) (s : EngineState) (i j : ℕ) (oi oj : Outcome),
      i < j → (runOutputs t s l)[i]? = some (some oi) →
      (runOutputs t s l)[j]? = some (some oj) →
      oi.ts + 700 ≤ oj.ts := by
  intro l
  induction l with
  | nil =>
      intro s i j oi oj hij hi hj
      simp [runOutputs_nil] at hi
  | cons a rest ih =>
      intro s i j oi oj hij hi hj
      rw [runOutputs_cons] at hi hj
      cases i with
      | zero =>
          obtain ⟨j2, rfl⟩ : ∃ j2, j = j2 + 1 := ⟨j - 1, by omega⟩
          simp only [List.getElem?_cons_zero, Option.some.injEq] at hi
          simp only [List.getElem?_cons_succ] at hj
          have he := step_emit t s a oi hi
          have hge := run_emit_ge_cooldown t rest (step t s a).1 j2 oj hj
          rw [he.2.2] at hge
          rw [he.1]
          exact hge
      | succ i2 =>
          obtain ⟨j2, rfl⟩ : ∃ j2, j = j2 + 1 := ⟨j - 1, by omega⟩
          simp only [List.getElem?_cons_succ] at hi hj
          exact ih (step t s a).1 i2 j2 oi oj (by omega) hi hj

/-! ### The last-gesture latch (claim C10) -/

/-- A frame that fires an instantaneous gesture of kind `k` can only do so
when `k` is not the latched last gesture, and it latches `k`. -/
lemma step_ges_latch (t : ThresholdConfig) (s : EngineState) (i : Orient)
    (k : GKind) (ts : ℝ) (h : (step t s i).2 = some (Outcome.ges k ts)) :
    s.lastGesture ≠ some k ∧ (step t s i).1.lastGesture = some k := by
  by_cases hL : s.isLearning
  · exact absurd ((step_learning_out t s i hL).1.symm.trans h) (by simp)
  · rw [Bool.not_eq_true] at hL
    by_cases hOut : isOutsideZone s.jitterZone i.beta i.gamma
    · by_cases hPat : 8 ≤ (updatedHistory s i).length ∧
        acceptPattern t (updatedHistory s i) i.ts s.cooldown
      · rw [step_pattern_accept t s i hL hOut hPat.1 hPat.2] at h
        simp at h
      · rw [step_to_classify t s i hL hOut hPat] at h ⊢
        rcases classify_cases t { s with patternHistory := updatedHistory s i } i
          with ⟨h0, _, _⟩ | ⟨w, hw, hne, hset, _, _⟩
        · exact absurd (h0.symm.trans h) (by simp)
        · rw [hw] at h
          simp only [Option.some.injEq, Outcome.ges.injEq] at h
          obtain ⟨rfl, rfl⟩ := h
          exact ⟨hne, hset⟩
    · rw [step_inside t s i hL hOut] at h
      exact absurd h (by simp)

/-- A frame that fires no instantaneous gesture leaves the last-gesture
latch untouched (pattern events and the displayed-badge timeout never clear
it). -/
lemma step_no_ges_latch (t : ThresholdConfig) (s : EngineState) (i : Orient)
    (h : ∀ (k : GKind) (ts : ℝ), (step t s i).2 ≠ some (Outcome.ges k ts)) :
    (step t s i).1.lastGesture = s.lastGesture := by
  by_cases hL : s.isLearning
  · exact (step_learning_out t s i hL).2.2.1
  · rw [Bool.not_eq_true] at hL
    by_cases hOut : isOutsideZone s.jitterZone i.beta i.gamma
    · by_cases hPat : 8 ≤ (updatedHistory s i).length ∧
        acceptPattern t (updatedHistory s i) i.ts s.cooldown
      · rw [step_pattern_accept t s i hL hOut hPat.1 hPat.2]
      · rw [step_to_classify t s i hL hOut hPat] at h ⊢
        rcases classify_cases t { s with patternHistory := updatedHistory s i } i
          with ⟨_, _, hlast⟩ | ⟨w, hw, _, _, _, _⟩
        · exact hlast
        · exact absurd hw (h w i.ts)
    · rw [step_inside t s i hL hOut]

/-- Same-kind lockout along a run, starting from a latched kind: as long as
no other kind fires, kind `k` cannot fire. -/
lemma latch_aux (t : ThresholdConfig) :
    ∀ (l : List Orient) (s : EngineState) (idx : ℕ) (k : GKind),
      s.lastGesture = some k →
      (∀ j, j < idx → ¬ isOtherGes ((runOutputs t s l).getD j none) k) →
      ¬ isGesOf ((runOutputs t s l).getD idx none) k := by
  intro l
  induction l with
  | nil =>
      intro s idx k hlatch hno
      simp [runOutputs_nil, isGesOf]
  | cons a rest ih =>
      intro s idx k hlatch hno
      rw [runOutputs_cons] at hno ⊢
      cases idx with
      | zero =>
          rintro ⟨ts, ho⟩
          rw [List.getD_cons_zero] at ho
          exact (step_ges_latch t s a k ts ho).1 hlatch
      | succ idx2 =>
          rw [List.getD_cons_succ]
          by_cases hg : ∃ (k2 : GKind) (ts : ℝ),
              (step t s a).2 = some (Outcome.ges k2 ts)
          · obtain ⟨k2, ts, ho⟩ := hg
            by_cases hk : k2 = k
            · subst hk
              exact absurd hlatch (step_ges_latch t s a k2 ts ho).1
            · exact absurd ⟨k2, ts, hk, by rw [List.getD_cons_zero]; exact ho⟩
                (hno 0 (Nat.succ_pos _))
          · push_neg at hg
            have hlatch2 : (step t s a).1.lastGesture = some k := by
              rw [step_no_ges_latch t s a hg, hlatch]
            refine ih (step t s a).1 idx2 k hlatch2 ?_
            intro j hj
            have := hno (j + 1) (by omega)
            rwa [List.getD_cons_succ] at this

/-- Claim C10: once the instantaneous classifier fires kind `k` (at run
index i0), that same kind cannot fire again — regardless of elapsed time or
cooldown expiry — at any later index `idx` before which no gesture of a
different kind has fired: the last-gesture latch is set on every win and is
only overwritten by a different winner (the 1-second timeout clears only
the displayed badge, which is not modelled because it feeds back into
nothing). -/
theorem same_kind_lockout (t : ThresholdConfig) :
    ∀ (l : List Orient) (s : EngineState) (i0 idx : ℕ) (k : GKind) (ts0 : ℝ),
      i0 < idx →
      (runOutputs t s l).getD i0 none = some (Outcome.ges k ts0) →
      (∀ j, i0 < j → j < idx → ¬ isOtherGes ((runOutputs t s l).getD j none) k) →
      ¬ isGesOf ((runOutputs t s l).getD idx none) k := by
  intro l
  induction l with
  | nil =>
      intro s i0 idx k ts0 hlt h0 hno
      simp [runOutputs_nil] at h0
  | cons a rest ih =>
      intro s i0 idx k ts0 hlt h0 hno
      rw [runOutputs_cons] at h0 hno ⊢
      obtain ⟨idx2, rfl⟩ : ∃ idx2, idx = idx2 + 1 := ⟨idx - 1, by omega⟩
      rw [List.getD_cons_succ]
      cases i0 with
      | zero =>
          rw [List.getD_cons_zero] at h0
          have hlatch := (step_ges_latch t s a k ts0 h0).2
          refine latch_aux t rest (step t s a).1 idx2 k hlatch ?_
          intro j hj
          have := hno (j + 1) (by omega) (by omega)
          rwa [List.getD_cons_succ] at this
      | succ i02 =>
          rw [List.getD_cons_succ] at h0
          refine ih (step t s a).1 i02 idx2 k ts0 (by omega) h0 ?_
          intro j hj1 hj2
          have := hno (j + 1) (by omega) (by omega)
          rwa [List.getD_cons_succ] at this

/-- Constructor disequality for `Option`, as a rewrite to `False` (used to
reduce the last-gesture lockout test in concrete runs). -/
lemma none_eq_some_false {α : Type} (a : α) :
    ((none : Option α) = some a) = False :=
  eq_false (fun h => Option.noConfusion h)

/-- Constructor disequality for `Option`, other direction. -/
lemma some_eq_none_false {α : Type} (a : α) :
    ((some a : Option α) = none) = False :=
  eq_false (fun h => Option.noConfusion h)

/-- A rest sample at orientation (0,0), frozen as the classifier base. -/
def restBase : GestureSample := ⟨0, 0, 0, 0, 0, 0⟩

/-- The learned jitter zone of the scenario: center (0,0), radius 5. -/
def c1Zone : JitterZone := ⟨0, 0, 5, 5⟩

/-- The scenario start state: learned zone (0,0)±5, base frozen at rest
(0,0), fresh counters, no latch, no cooldown. -/
def c1State : EngineState :=
  ⟨⟨0, 0⟩, ⟨0, 0⟩, ⟨0, 0⟩, some restBase, zeroCounts, none, 0, [], some c1Zone,
    false, [], 0⟩

/-! ### Counter and rule-loop lemmas (for claim C3) -/

/-- Reading back a just-written counter. -/
lemma getCnt_setCnt_same (c : Counts) (k : GKind) (n : ℕ) :
    getCnt (setCnt c k n) k = n := by
  cases k <;> rfl

/-- Writing one counter leaves the others alone. -/
lemma getCnt_setCnt_other (c : Counts) (k k2 : GKind) (n : ℕ) (h : k2 ≠ k) :
    getCnt (setCnt c k n) k2 = getCnt c k2 := by
  cases k <;> cases k2 <;> first | rfl | exact absurd rfl h

/-- Writing a counter's current value is a no-op. -/
lemma setCnt_self (c : Counts) (k : GKind) : setCnt c k (getCnt c k) = c := by
  cases k <;> rfl

/-- Overwriting a counter twice keeps only the second write. -/
lemma setCnt_setCnt (c : Counts) (k : GKind) (m n : ℕ) :
    setCnt (setCnt c k m) k n = setCnt c k n := by
  cases k <;> rfl

/-- Zeroing the zero map is a no-op. -/
lemma setCnt_zero_zero (k : GKind) : setCnt zeroCounts k 0 = zeroCounts := by
  cases k <;> rfl

/-- Every kind is in the iteration order. -/
lemma mem_kindOrder (k : GKind) : k ∈ kindOrder := by
  cases k <;> simp [kindOrder]

/-- The iteration order lists each kind once. -/
lemma kindOrder_nodup : kindOrder.Nodup := by decide

/-- A winner of the rule loop satisfies its enabled flag and its predicate. -/
lemma ruleLoop_winner (t : ThresholdConfig) (sm b : GestureSample) :
    ∀ (l : List GKind) (c : Counts) (w : GKind),
      (ruleLoop t sm b l c).1 = some w →
      ruleEnabled t w = true ∧ rulePred w sm b t := by
  intro l
  induction l with
  | nil =>
      intro c w h
      simp [ruleLoop] at h
  | cons a rest ih =>
      intro c w h
      simp only [ruleLoop] at h
      by_cases hc : ruleEnabled t a = true ∧ rulePred a sm b t
      · rw [if_pos hc] at h
        by_cases hn : needFrames a ≤ getCnt c a + 1
        · rw [if_pos hn] at h
          simp only [Option.some.injEq] at h
          exact h ▸ hc
        · rw [if_neg hn] at h
          exact ih _ w h
      · rw [if_neg hc] at h
        exact ih _ w h

/-- A kind not iterated over keeps its counter. -/
lemma ruleLoop_cnt_absent (t : ThresholdConfig) (sm b : GestureSample) (k : GKind) :
    ∀ (l : List GKind) (c : Counts), k ∉ l →
      getCnt (ruleLoop t sm b l c).2 k = getCnt c k := by
  intro l
  induction l with
  | nil =>
      intro c _
      rfl
  | cons a rest ih =>
      intro c h
      have hka : k ≠ a := fun hh => h (hh ▸ List.mem_cons_self a rest)
      have hkr : k ∉ rest := fun hh => h (List.mem_cons_of_mem a hh)
      simp only [ruleLoop]
      by_cases hc : ruleEnabled t a = true ∧ rulePred a sm b t
      · rw [if_pos hc]
        by_cases hn : needFrames a ≤ getCnt c a + 1
        · rw [if_pos hn]
          exact getCnt_setCnt_other c a k _ hka
        · rw [if_neg hn, ih _ hkr]
          exact getCnt_setCnt_other c a k _ hka
      · rw [if_neg hc, ih _ hkr]
        exact getCnt_setCnt_other c a k 0 hka

/-- Across one pass of the loop (no duplicate kinds), a counter grows by at
most 1, and only when its predicate matched. -/
lemma ruleLoop_cnt_growth (t : ThresholdConfig) (sm b : GestureSample) (k : GKind) :
    ∀ (l : List GKind) (c : Counts), l.Nodup →
      getCnt (ruleLoop t sm b l c).2 k ≤
        getCnt c k + (if rulePred k sm b t then 1 else 0) := by
  intro l
  induction l with
  | nil =>
      intro c _
      exact Nat.le_add_right _ _
  | cons a rest ih =>
      intro c hnd
      have hnd2 := (List.nodup_cons.mp hnd).2
      have hnar := (List.nodup_cons.mp hnd).1
      simp only [ruleLoop]
      by_cases hak : a = k
      · subst hak
        by_cases hc : ruleEnabled t a = true ∧ rulePred a sm b t
        · rw [if_pos hc, if_pos hc.2]
          by_cases hn : needFrames a ≤ getCnt c a + 1
          · rw [if_pos hn, getCnt_setCnt_same]
          · rw [if_neg hn, ruleLoop_cnt_absent t sm b a rest _ hnar,
              getCnt_setCnt_same]
        · rw [if_neg hc, ruleLoop_cnt_absent t sm b a rest _ hnar,
            getCnt_setCnt_same]
          exact Nat.zero_le _
      · have hka : k ≠ a := fun hh => hak hh.symm
        by_cases hc : ruleEnabled t a = true ∧ rulePred a sm b t
        · rw [if_pos hc]
          by_cases hn : needFrames a ≤ getCnt c a + 1
          · rw [if_pos hn, getCnt_setCnt_other c a k _ hka]
            exact Nat.le_add_right _ _
          · rw [if_neg hn]
            calc getCnt (ruleLoop t sm b rest (setCnt c a _)).2 k
                ≤ getCnt (setCnt c a _) k +
                    (if rulePred k sm b t then 1 else 0) := ih _ hnd2
              _ = getCnt c k + _ := by rw [getCnt_setCnt_other c a k _ hka]
        · rw [if_neg hc]
          calc getCnt (ruleLoop t sm b rest (setCnt c a 0)).2 k
              ≤ getCnt (setCnt c a 0) k +
                  (if rulePred k sm b t then 1 else 0) := ih _ hnd2
            _ = getCnt c k + _ := by rw [getCnt_setCnt_other c a k 0 hka]

/-- A winner of the loop is one of the iterated kinds. -/
lemma ruleLoop_winner_mem (t : ThresholdConfig) (sm b : GestureSample) :
    ∀ (l : List GKind) (c : Counts) (w : GKind),
      (ruleLoop t sm b l c).1 = some w → w ∈ l := by
  intro l
  induction l with
  | nil =>
      intro c w h
      simp [ruleLoop] at h
  | cons a rest ih =>
      intro c w h
      simp only [ruleLoop] at h
      by_cases hc : ruleEnabled t a = true ∧ rulePred a sm b t
      · rw [if_pos hc] at h
        by_cases hn : needFrames a ≤ getCnt c a + 1
        · rw [if_pos hn] at h
          simp only [Option.some.injEq] at h
          exact h ▸ List.mem_cons_self a rest
        · rw [if_neg hn] at h
          exact List.mem_cons_of_mem a (ih _ w h)
      · rw [if_neg hc] at h
        exact List.mem_cons_of_mem a (ih _ w h)

/-- A winner's counter had already accumulated `needFrames - 1` before this
frame's increment (no duplicate kinds). -/
lemma ruleLoop_winner_needs (t : ThresholdConfig) (sm b : GestureSample) :
    ∀ (l : List GKind) (c : Counts) (w : GKind), l.Nodup →
      (ruleLoop t sm b l c).1 = some w →
      needFrames w ≤ getCnt c w + 1 := by
  intro l
  induction l with
  | nil =>
      intro c w _ h
      simp [ruleLoop] at h
  | cons a rest ih =>
      intro c w hnd h
      have hnd2 := (List.nodup_cons.mp hnd).2
      have hnar := (List.nodup_cons.mp hnd).1
      simp only [ruleLoop] at h
      by_cases hc : ruleEnabled t a = true ∧ rulePred a sm b t
      · rw [if_pos hc] at h
        by_cases hn : needFrames a ≤ getCnt c a + 1
        · rw [if_pos hn] at h
          simp only [Option.some.injEq] at h
          subst h
          exact hn
        · rw [if_neg hn] at h
          have hwr := ruleLoop_winner_mem t sm b rest _ w h
          have hwa : w ≠ a := fun hh => hnar (hh ▸ hwr)
          have := ih _ w hnd2 h
          rwa [getCnt_setCnt_other c a w _ (by exact hwa)] at this
      · rw [if_neg hc] at h
        have hwr := ruleLoop_winner_mem t sm b rest _ w h
        have hwa : w ≠ a := fun hh => hnar (hh ▸ hwr)
        have := ih _ w hnd2 h
        rwa [getCnt_setCnt_other c a w 0 (by exact hwa)] at this

/-- The rules read only the raw beta/gamma of the current sample: the rule
predicate as a function of the raw angles. -/
def rawPred (k : GKind) (beta gamma : ℝ) (b : GestureSample)
    (t : ThresholdConfig) : Prop :=
  rulePred k ⟨0, 0, 0, beta, gamma, 0⟩ b t

/-- `rulePred` only depends on the sample's beta and gamma. -/
lemma rulePred_raw (k : GKind) (sm b : GestureSample) (t : ThresholdConfig) :
    rulePred k sm b t ↔ rawPred k sm.beta sm.gamma b t := by
  cases k <;> exact Iff.rfl

/-- With all kinds other than `k` disabled and only-zero other counters, a
loop pass over kinds not containing `k` changes nothing. -/
lemma ruleLoop_only_absent (t : ThresholdConfig) (sm b : GestureSample)
    (k : GKind) (honly : ∀ k2, ruleEnabled t k2 = true → k2 = k) :
    ∀ (l : List GKind) (c : Counts), k ∉ l →
      (∀ k2, k2 ≠ k → getCnt c k2 = 0) →
      ruleLoop t sm b l c = (none, c) := by
  intro l
  induction l with
  | nil =>
      intro c _ _
      rfl
  | cons a rest ih =>
      intro c h hz
      have hak : a ≠ k := fun hh => h (hh ▸ List.mem_cons_self a rest)
      have hkr : k ∉ rest := fun hh => h (List.mem_cons_of_mem a hh)
      have hena : ¬ (ruleEnabled t a = true ∧ rulePred a sm b t) := by
        rintro ⟨he, _⟩
        exact hak (honly a he)
      simp only [ruleLoop]
      rw [if_neg hena]
      have hc0 : setCnt c a 0 = c := by
        have := hz a hak
        calc setCnt c a 0 = setCnt c a (getCnt c a) := by rw [this]
          _ = c := setCnt_self c a
      rw [hc0]
      exact ih c hkr hz

/-- With only `k` enabled and only-zero other counters, a matching frame
increments exactly `k`'s counter and wins exactly when the hold count is
reached. -/
lemma ruleLoop_only_match (t : ThresholdConfig) (sm b : GestureSample)
    (k : GKind) (honly : ∀ k2, ruleEnabled t k2 = true → k2 = k)
    (henk : ruleEnabled t k = true) (hpred : rulePred k sm b t) :
    ∀ (l : List GKind) (c : Counts), l.Nodup → k ∈ l →
      (∀ k2, k2 ≠ k → getCnt c k2 = 0) →
      ruleLoop t sm b l c =
        ((if needFrames k ≤ getCnt c k + 1 then some k else none),
          setCnt c k (getCnt c k + 1)) := by
  intro l
  induction l with
  | nil =>
      intro c _ hmem _
      simp at hmem
  | cons a rest ih =>
      intro c hnd hmem hz
      have hnd2 := (List.nodup_cons.mp hnd).2
      have hnar := (List.nodup_cons.mp hnd).1
      by_cases hak : a = k
      · subst hak
        simp only [ruleLoop]
        rw [if_pos ⟨henk, hpred⟩]
        by_cases hn : needFrames a ≤ getCnt c a + 1
        · rw [if_pos hn, if_pos hn]
        · rw [if_neg hn, if_neg hn]
          have hz2 : ∀ k2, k2 ≠ a → getCnt (setCnt c a (getCnt c a + 1)) k2 = 0 := by
            intro k2 hk2
            rw [getCnt_setCnt_other c a k2 _ hk2]
            exact hz k2 hk2
          rw [ruleLoop_only_absent t sm b a honly rest _ hnar hz2]
      · have hmem2 : k ∈ rest := by
          rcases List.mem_cons.mp hmem with h | h
          · exact absurd h.symm hak
          · exact h
        have hena : ¬ (ruleEnabled t a = true ∧ rulePred a sm b t) := by
          rintro ⟨he, _⟩
          exact hak (honly a he)
        simp only [ruleLoop]
        rw [if_neg hena]
        have hc0 : setCnt c a 0 = c := by
          have := hz a (fun hh => hak hh)
          calc setCnt c a 0 = setCnt c a (getCnt c a) := by rw [this]
            _ = c := setCnt_self c a
        rw [hc0]
        exact ih c hnd2 hmem2 hz

/-- The classifier tail, decomposed against a frozen base sample `b`, when
the cooldown has passed: some sample with the frame's raw angles is fed to
the rule loop on the frame's counters; the loop's result fully determines
the frame's counter update, firing decision, latch and cooldown. -/
lemma classify_run (t : ThresholdConfig) (s : EngineState) (i : Orient)
    (b : GestureSample) (hb : s.base = some b) (hcool : ¬ i.ts < s.cooldown) :
    ∃ sm : GestureSample, sm.beta = i.beta ∧ sm.gamma = i.gamma ∧
      (classify t s i).1.cnt = (ruleLoop t sm b kindOrder s.cnt).2 ∧
      ((ruleLoop t sm b kindOrder s.cnt).1 = none →
        (classify t s i).2 = none ∧
        (classify t s i).1.lastGesture = s.lastGesture ∧
        (classify t s i).1.cooldown = s.cooldown) ∧
      (∀ w, (ruleLoop t sm b kindOrder s.cnt).1 = some w →
        s.lastGesture = some w →
        (classify t s i).2 = none ∧
        (classify t s i).1.lastGesture = s.lastGesture ∧
        (classify t s i).1.cooldown = s.cooldown) ∧
      (∀ w, (ruleLoop t sm b kindOrder s.cnt).1 = some w →
        s.lastGesture ≠ some w →
        (classify t s i).2 = some (Outcome.ges w i.ts) ∧
        (classify t s i).1.lastGesture = some w ∧
        (classify t s i).1.cooldown = i.ts + 700) := by
  refine ⟨⟨(s.kalX.update i.beta).2, (s.kalY.update i.gamma).2,
    (s.kalZ.update 0).2, i.beta, i.gamma, i.ts⟩, rfl, rfl, ?_⟩
  simp only [classify, hb, Option.getD_some, if_neg hcool]
  refine ⟨?_, ?_, ?_, ?_⟩
  · rcases hrl : (ruleLoop t _ b kindOrder s.cnt).1 with _ | w
    · simp only [hrl]
    · simp only [hrl]
      by_cases hl : s.lastGesture = some w
      · rw [if_pos hl]
      · rw [if_neg hl]
  · intro h
    simp [h]
  · intro w h hlast
    simp [h, hlast]
  · intro w h hlast
    simp [h, hlast]

/-- A fired gesture kind was enabled. -/
lemma classify_ges_enabled (t : ThresholdConfig) (s : EngineState) (i : Orient)
    (w : GKind) (ts : ℝ) (h : (classify t s i).2 = some (Outcome.ges w ts)) :
    ruleEnabled t w = true := by
  simp only [classify] at h
  split at h
  · simp at h
  · split at h
    · simp at h
    · rename_i w2 hw2
      split at h
      · simp at h
      · simp only [Option.some.injEq, Outcome.ges.injEq] at h
        obtain ⟨h1, _⟩ := h
        subst h1
        exact (ruleLoop_winner t _ _ kindOrder _ w2 hw2).1

/-- A fired gesture kind was enabled (whole frame). -/
lemma step_ges_enabled (t : ThresholdConfig) (s : EngineState) (i : Orient)
    (w : GKind) (ts : ℝ) (h : (step t s i).2 = some (Outcome.ges w ts)) :
    ruleEnabled t w = true := by
  by_cases hL : s.isLearning
  · exact absurd ((step_learning_out t s i hL).1.symm.trans h) (by simp)
  · rw [Bool.not_eq_true] at hL
    by_cases hOut : isOutsideZone s.jitterZone i.beta i.gamma
    · by_cases hPat : 8 ≤ (updatedHistory s i).length ∧
        acceptPattern t (updatedHistory s i) i.ts s.cooldown
      · rw [step_pattern_accept t s i hL hOut hPat.1 hPat.2] at h
        simp at h
      · rw [step_to_classify t s i hL hOut hPat] at h
        exact classify_ges_enabled t _ i w ts h
    · rw [step_inside t s i hL hOut] at h
      exact absurd h (by simp)

/-- With only kind `k` enabled and `k` latched as the last gesture, no
instantaneous gesture can fire for the remainder of a run. -/
lemma only_k_latched_silent (t : ThresholdConfig) (k : GKind)
    (honly : ∀ k2, ruleEnabled t k2 = true → k2 = k) :
    ∀ (l : List Orient) (s : EngineState), s.lastGesture = some k →
      ∀ o ∈ runOutputs t s l, ¬ isGes o := by
  intro l
  induction l with
  | nil =>
      intro s _ o ho
      simp [runOutputs_nil] at ho
  | cons i rest ih =>
      intro s hlatch o ho
      rw [runOutputs_cons] at ho
      have hhead : ∀ (w : GKind) (ts : ℝ),
          (step t s i).2 ≠ some (Outcome.ges w ts) := by
        intro w ts hcontra
        have hw := honly w (step_ges_enabled t s i w ts hcontra)
        subst hw
        exact (step_ges_latch t s i w ts hcontra).1 hlatch
      rcases List.mem_cons.mp ho with rfl | ho2
      · rintro ⟨w, ts, hcontra⟩
        exact hhead w ts hcontra
      · have hlatch2 : (step t s i).1.lastGesture = some k := by
          rw [step_no_ges_latch t s i hhead, hlatch]
        exact ih (step t s i).1 hlatch2 o ho2

/-- Number of frames of a list on which kind `k`'s predicate matches. -/
def predCount (k : GKind) (b : GestureSample) (t : ThresholdConfig) :
    List Orient → ℕ
  | [] => 0
  | i :: rest =>
      (if rawPred k i.beta i.gamma b t then 1 else 0) + predCount k b t rest

/-- The classifier in the cooldown window: silent, counters untouched. -/
lemma classify_cooldown (t : ThresholdConfig) (s : EngineState) (i : Orient)
    (hcool : i.ts < s.cooldown) :
    (classify t s i).2 = none ∧ (classify t s i).1.cnt = s.cnt := by
  simp only [classify]
  rw [if_pos hcool]
  exact ⟨rfl, rfl⟩

/-- Budget argument: with only kind `k` enabled, starting below the hold
count and with fewer matching frames remaining than the hold count leaves
room for, no instantaneous gesture ever fires. -/
lemma no_fire_budget (t : ThresholdConfig) (k : GKind) (b : GestureSample)
    (honly : ∀ k2, ruleEnabled t k2 = true → k2 = k) :
    ∀ (l : List Orient) (s : EngineState),
      s.isLearning = false → s.base = some b →
      getCnt s.cnt k + predCount k b t l < needFrames k →
      ∀ o ∈ runOutputs t s l, ¬ isGes o := by
  intro l
  induction l with
  | nil =>
      intro s _ _ _ o ho
      simp [runOutputs_nil] at ho
  | cons i rest ih =>
      intro s hL hb hbud o ho
      rw [runOutputs_cons] at ho
      have hpcle : predCount k b t rest ≤ predCount k b t (i :: rest) := by
        simp only [predCount]
        exact Nat.le_add_left _ _
      by_cases hOut : isOutsideZone s.jitterZone i.beta i.gamma
      · by_cases hPat : 8 ≤ (updatedHistory s i).length ∧
          acceptPattern t (updatedHistory s i) i.ts s.cooldown
        · rw [step_pattern_accept t s i hL hOut hPat.1 hPat.2] at ho
          rcases List.mem_cons.mp ho with rfl | ho2
          · rintro ⟨w, ts, hcontra⟩
            simp at hcontra
          · refine ih _ ?_ ?_ ?_ o ho2
            · exact hL
            · exact hb
            · show getCnt s.cnt k + predCount k b t rest < needFrames k
              omega
        · rw [step_to_classify t s i hL hOut hPat] at ho
          have hb2 : ({ s with patternHistory := updatedHistory s i } :
              EngineState).base = some b := hb
          by_cases hcool : i.ts < s.cooldown
          · have hcd := classify_cooldown t
              { s with patternHistory := updatedHistory s i } i hcool
            rcases List.mem_cons.mp ho with rfl | ho2
            · rintro ⟨w, ts, hcontra⟩
              rw [hcd.1] at hcontra
              simp at hcontra
            · refine ih _ ?_ ?_ ?_ o ho2
              · exact (classify_fields t _ i).1.trans hL
              · exact (classify_fields t _ i).2.2.2.2 b hb2
              · rw [hcd.2]
                show getCnt s.cnt k + predCount k b t rest < needFrames k
                omega
          · obtain ⟨sm, hsmb, hsmg, hcnt, hnone, hlocked, hfire⟩ :=
              classify_run t { s with patternHistory := updatedHistory s i } i b
                hb2 hcool
            have hconv : ({ s with patternHistory := updatedHistory s i } :
                EngineState).cnt = s.cnt := rfl
            rw [hconv] at hcnt hnone hlocked hfire
            have hpred_iff : rulePred k sm b t ↔ rawPred k i.beta i.gamma b t := by
              rw [rulePred_raw, hsmb, hsmg]
            rcases List.mem_cons.mp ho with rfl | ho2
            · rintro ⟨w, ts, hcontra⟩
              rcases hrl : (ruleLoop t sm b kindOrder s.cnt).1 with _ | w2
              · rw [(hnone hrl).1] at hcontra
                simp at hcontra
              · by_cases hlast : s.lastGesture = some w2
                · rw [(hlocked w2 hrl hlast).1] at hcontra
                  simp at hcontra
                · have hwk : w2 = k :=
                    honly w2 (ruleLoop_winner t sm b kindOrder s.cnt w2 hrl).1
                  subst hwk
                  have hneeds := ruleLoop_winner_needs t sm b kindOrder s.cnt w2
                    kindOrder_nodup hrl
                  have hpred := (ruleLoop_winner t sm b kindOrder s.cnt w2 hrl).2
                  rw [hpred_iff] at hpred
                  simp only [predCount, if_pos hpred] at hbud
                  omega
            · refine ih _ ?_ ?_ ?_ o ho2
              · exact (classify_fields t _ i).1.trans hL
              · exact (classify_fields t _ i).2.2.2.2 b hb2
              · rw [hcnt]
                have hgrow := ruleLoop_cnt_growth t sm b k kindOrder s.cnt
                  kindOrder_nodup
                by_cases hp : rawPred k i.beta i.gamma b t
                · rw [if_pos (hpred_iff.mpr hp)] at hgrow
                  simp only [predCount, if_pos hp] at hbud
                  omega
                · rw [if_neg (fun hh => hp (hpred_iff.mp hh))] at hgrow
                  simp only [predCount, if_neg hp] at hbud
                  omega
      · rw [step_inside t s i hL hOut] at ho
        rcases List.mem_cons.mp ho with rfl | ho2
        · rintro ⟨w, ts, hcontra⟩
          simp at hcontra
        · refine ih _ ?_ ?_ ?_ o ho2
          · exact hL
          · exact hb
          · show getCnt zeroCounts k + predCount k b t rest < needFrames k
            have hz : getCnt zeroCounts k = 0 := by cases k <;> rfl
            omega

/-- Frames matching only inside an index window of width `w` number at
most `w`. -/
lemma predCount_le_window (k : GKind) (b : GestureSample) (t : ThresholdConfig) :
    ∀ (l : List Orient) (a w : ℕ),
      (∀ (idx : ℕ) (h : idx < l.length),
        rawPred k (l.get ⟨idx, h⟩).beta (l.get ⟨idx, h⟩).gamma b t →
          a ≤ idx ∧ idx < a + w) →
      predCount k b t l ≤ w := by
  intro l
  induction l with
  | nil =>
      intro a w _
      exact Nat.zero_le _
  | cons i rest ih =>
      intro a w hwin
      by_cases hp : rawPred k i.beta i.gamma b t
      · have h0 := hwin 0 (Nat.succ_pos _) hp
        have hw1 : 1 ≤ w := by omega
        have htail : predCount k b t rest ≤ w - 1 := by
          refine ih 0 (w - 1) ?_
          intro idx h hpred
          have := hwin (idx + 1) (by simpa using Nat.succ_lt_succ h) hpred
          omega
        simp only [predCount, if_pos hp]
        omega
      · have htail : predCount k b t rest ≤ w := by
          refine ih (a - 1) w ?_
          intro idx h hpred
          have := hwin (idx + 1) (by simpa using Nat.succ_lt_succ h) hpred
          omega
        simp only [predCount, if_neg hp]
        omega

/-- Pruning never lengthens the window. -/
lemma pruneWindow_length_le (now : ℝ) :
    ∀ l : List PatternPoint, (pruneWindow now l).length ≤ l.length := by
  intro l
  induction l with
  | nil => simp [pruneWindow]
  | cons p rest ih =>
      simp only [pruneWindow]
      split
      · simpa using ih
      · exact le_trans ih (Nat.le_succ _)

/-- The refreshed window grows by at most one point per frame. -/
lemma updatedHistory_len (s : EngineState) (i : Orient) :
    (updatedHistory s i).length ≤ s.patternHistory.length + 1 := by
  calc (updatedHistory s i).length
      ≤ (s.patternHistory ++ [newPointOf s i]).length :=
        pruneWindow_length_le i.ts _
    _ = s.patternHistory.length + 1 := by simp

/-- The exact evolution of a run of consecutive all-matching frames with
only kind `k` enabled, from a clean classifier state whose hold counter
already stands at `j`: every frame until the hold count is reached emits
nothing, and the frame on which `j + remaining` reaches the hold count
fires `k` once, at that frame's timestamp. -/
lemma part2_aux (t : ThresholdConfig) (k : GKind) (b : GestureSample)
    (honly : ∀ k2, ruleEnabled t k2 = true → k2 = k)
    (henk : ruleEnabled t k = true) :
    ∀ (l : List Orient) (s : EngineState) (j : ℕ),
      s.isLearning = false → s.base = some b →
      s.cnt = setCnt zeroCounts k j →
      s.lastGesture = none → s.cooldown = 0 →
      s.patternHistory.length + l.length ≤ 7 →
      j + l.length = needFrames k →
      l ≠ [] →
      (∀ i ∈ l, rawPred k i.beta i.gamma b t ∧
        isOutsideZone s.jitterZone i.beta i.gamma ∧ 0 ≤ i.ts) →
      ∃ inpLast, l.getLast? = some inpLast ∧
        runOutputs t s l =
          List.replicate (l.length - 1) none ++ [some (Outcome.ges k inpLast.ts)] ∧
        (runSteps t s l).1.lastGesture = some k ∧
        (runSteps t s l).1.isLearning = false := by
  intro l
  induction l with
  | nil =>
      intro s j _ _ _ _ _ _ _ hne _
      exact absurd rfl hne
  | cons i li ih =>
      intro s j hL hb hcnt hlast hcool hhist hneed _ hall
      have hii := hall i (List.mem_cons_self i li)
      have hOut : isOutsideZone s.jitterZone i.beta i.gamma := hii.2.1
      have hts : (0 : ℝ) ≤ i.ts := hii.2.2
      have hnopat : ¬ (8 ≤ (updatedHistory s i).length ∧
          acceptPattern t (updatedHistory s i) i.ts s.cooldown) := by
        rintro ⟨h8, _⟩
        have := updatedHistory_len s i
        simp only [List.length_cons] at hhist
        omega
      have hstep : step t s i =
          classify t { s with patternHistory := updatedHistory s i } i :=
        step_to_classify t s i hL hOut hnopat
      have hb2 : ({ s with patternHistory := updatedHistory s i } :
          EngineState).base = some b := hb
      have hcool2 : ¬ i.ts < ({ s with patternHistory := updatedHistory s i } :
          EngineState).cooldown := by
        show ¬ i.ts < s.cooldown
        rw [hcool]
        exact not_lt.mpr hts
      obtain ⟨sm, hsmb, hsmg, hcnt2, hnone, hlocked, hfire⟩ :=
        classify_run t { s with patternHistory := updatedHistory s i } i b
          hb2 hcool2
      have hconv : ({ s with patternHistory := updatedHistory s i } :
          EngineState).cnt = s.cnt := rfl
      rw [hconv] at hcnt2 hnone hlocked hfire
      have hpred : rulePred k sm b t := by
        rw [rulePred_raw, hsmb, hsmg]
        exact hii.1
      have hzero : ∀ k2, k2 ≠ k → getCnt s.cnt k2 = 0 := by
        intro k2 hk2
        rw [hcnt, getCnt_setCnt_other _ _ _ _ hk2]
        cases k2 <;> rfl
      have hgetk : getCnt s.cnt k = j := by
        rw [hcnt, getCnt_setCnt_same]
      have hrl := ruleLoop_only_match t sm b k honly henk hpred kindOrder s.cnt
        kindOrder_nodup (mem_kindOrder k) hzero
      have hrl1 : (ruleLoop t sm b kindOrder s.cnt).1 =
          if needFrames k ≤ j + 1 then some k else none := by
        rw [hrl, hgetk]
      have hrl2 : (ruleLoop t sm b kindOrder s.cnt).2 =
          setCnt s.cnt k (j + 1) := by
        rw [hrl, hgetk]
      cases li with
      | nil =>
          have hn : needFrames k = j + 1 := by
            simpa using hneed.symm
          have hwin : (ruleLoop t sm b kindOrder s.cnt).1 = some k := by
            rw [hrl1, if_pos (by omega)]
          have hne : s.lastGesture ≠ some k := by
            rw [hlast]
            exact fun h => Option.noConfusion h
          have hf := hfire k hwin hne
          refine ⟨i, rfl, ?_, ?_, ?_⟩
          · rw [runOutputs_cons, hstep, hf.1]
            simp [runOutputs_nil]
          · show (runSteps t (step t s i).1 []).1.lastGesture = some k
            rw [hstep]
            exact hf.2.1
          · show (runSteps t (step t s i).1 []).1.isLearning = false
            rw [hstep]
            exact (classify_fields t _ i).1.trans hL
      | cons i2 li2 =>
          have hnowin : (ruleLoop t sm b kindOrder s.cnt).1 = none := by
            rw [hrl1, if_neg ?_]
            simp only [List.length_cons] at hneed
            omega
          have hn := hnone hnowin
          have hfields := classify_fields t
            { s with patternHistory := updatedHistory s i } i
          have hL1 : (step t s i).1.isLearning = false := by
            rw [hstep]
            exact hfields.1.trans hL
          have hb1 : (step t s i).1.base = some b := by
            rw [hstep]
            exact hfields.2.2.2.2 b hb2
          have hcnt1 : (step t s i).1.cnt = setCnt zeroCounts k (j + 1) := by
            rw [hstep, hcnt2, hrl2, hcnt, setCnt_setCnt]
          have hlast1 : (step t s i).1.lastGesture = none := by
            rw [hstep, hn.2.1]
            exact hlast
          have hcool1 : (step t s i).1.cooldown = 0 := by
            rw [hstep, hn.2.2]
            exact hcool
          have hzone1 : (step t s i).1.jitterZone = s.jitterZone := by
            rw [hstep]
            exact hfields.2.1
          have hhist1 : (step t s i).1.patternHistory.length +
              (i2 :: li2).length ≤ 7 := by
            rw [hstep, hfields.2.2.1]
            have := updatedHistory_len s i
            show (updatedHistory s i).length + (i2 :: li2).length ≤ 7
            simp only [List.length_cons] at hhist ⊢
            omega
          have hneed1 : (j + 1) + (i2 :: li2).length = needFrames k := by
            simp only [List.length_cons] at hneed ⊢
            omega
          have hall1 : ∀ i3 ∈ (i2 :: li2), rawPred k i3.beta i3.gamma b t ∧
              isOutsideZone (step t s i).1.jitterZone i3.beta i3.gamma ∧
              0 ≤ i3.ts := by
            intro i3 h3
            have := hall i3 (List.mem_cons_of_mem i h3)
            rw [hzone1]
            exact this
          obtain ⟨ip, hip1, hip2, hip3, hip4⟩ :=
            ih (step t s i).1 (j + 1) hL1 hb1 hcnt1 hlast1 hcool1 hhist1 hneed1
              (by simp) hall1
          refine ⟨ip, ?_, ?_, hip3, hip4⟩
          · rw [List.getLast?_cons_cons]
            exact hip1
          · have hout0 : (step t s i).2 = none := by
              rw [hstep]
              exact hn.1
            rw [runOutputs_cons, hout0, hip2]
            simp [List.replicate_succ]

/-- Hold counts are between 1 and 6. -/
lemma needFrames_bounds (k : GKind) : 1 ≤ needFrames k ∧ needFrames k ≤ 6 := by
  cases k <;> exact ⟨by norm_num [needFrames], by norm_num [needFrames]⟩

/-- Claim C3: for every gesture rule `k` with hold count `n = needFrames k`
(run in isolation: only `k` enabled, base sample frozen, counters fresh),
(1) if the rule's predicate matches only within a window of `n - 1`
consecutive frames — in particular, matches for exactly `n - 1` consecutive
frames and then stops — the rule never fires; (2) if the predicate matches
for exactly `n` consecutive frames (each outside the jitter zone, from a
clean start), the rule fires exactly once, on the `n`-th frame, and never
again on any subsequent frames. -/
theorem hysteresis_hold_count :
    (∀ (t : ThresholdConfig) (k : GKind) (b : GestureSample) (s : EngineState)
        (l : List Orient) (a : ℕ),
      (∀ k2, ruleEnabled t k2 = true → k2 = k) →
      s.isLearning = false → s.base = some b → getCnt s.cnt k = 0 →
      (∀ (idx : ℕ) (h : idx < l.length),
        rawPred k (l.get ⟨idx, h⟩).beta (l.get ⟨idx, h⟩).gamma b t →
          a ≤ idx ∧ idx < a + (needFrames k - 1)) →
      ∀ o ∈ runOutputs t s l, ¬ isGesOf o k) ∧
    (∀ (t : ThresholdConfig) (k : GKind) (b : GestureSample) (s : EngineState)
        (first rest : List Orient),
      (∀ k2, ruleEnabled t k2 = true → k2 = k) →
      ruleEnabled t k = true →
      s.isLearning = false → s.base = some b → s.cnt = zeroCounts →
      s.lastGesture = none → s.cooldown = 0 → s.patternHistory = [] →
      first.length = needFrames k →
      (∀ i ∈ first, rawPred k i.beta i.gamma b t ∧
        isOutsideZone s.jitterZone i.beta i.gamma ∧ 0 ≤ i.ts) →
      ∃ inpLast, first.getLast? = some inpLast ∧
        runOutputs t s first =
          List.replicate (needFrames k - 1) none ++
            [some (Outcome.ges k inpLast.ts)] ∧
        ∀ o ∈ runOutputs t (runSteps t s first).1 rest, ¬ isGes o) := by
  constructor
  · intro t k b s l a honly hL hb hcnt hwin o ho
    have hcount := predCount_le_window k b t l a (needFrames k - 1) hwin
    have hpos := (needFrames_bounds k).1
    have hbud : getCnt s.cnt k + predCount k b t l < needFrames k := by
      rw [hcnt]
      omega
    rintro ⟨ts, hts⟩
    exact no_fire_budget t k b honly l s hL hb hbud o ho ⟨k, ts, hts⟩
  · intro t k b s first rest honly henk hL hb hcnt hlast hcool hph hlen hall
    have hle6 := (needFrames_bounds k).2
    have hpos := (needFrames_bounds k).1
    obtain ⟨ip, hip1, hip2, hip3, hip4⟩ :=
      part2_aux t k b honly henk first s 0 hL hb
        (by rw [hcnt, setCnt_zero_zero]) hlast hcool
        (by rw [hph]; simp [hlen]; omega)
        (by rw [hlen]; omega) (by rw [← List.length_pos, hlen]; omega) hall
    refine ⟨ip, hip1, ?_, ?_⟩
    · rw [hip2, hlen]
    · exact only_k_latched_silent t k honly rest (runSteps t s first).1 hip3

/-- Only the PASS rule enabled. -/
def tOnlyPASS : ThresholdConfig :=
  { defaultThresholds with
    SHOT_ENABLED := false
    TACKLE_ENABLED := false
    VOICE_TAG_ENABLED := false
    FOUL_ENABLED := false
    CORNER_ENABLED := false
    OFFSIDE_ENABLED := false
    SUBSTITUTION_ENABLED := false }

/-- Two PASS-matching frames: one frame short of the hold count 3. -/
def c3Win : List Orient := [⟨41, 0, 1000⟩, ⟨41, 0, 1067⟩]

/-- Three PASS-matching frames: exactly the hold count 3. -/
def c3Fire : List Orient := [⟨41, 0, 1000⟩, ⟨41, 0, 1067⟩, ⟨41, 0, 1134⟩]

/-- Witness for claim C3's theorem at the PASS rule: two matching frames
never fire; three matching frames fire exactly once, on the 3rd frame. -/
theorem hysteresis_hold_count_witness :
    (¬ isGesOf ((runOutputs tOnlyPASS c1State c3Win).getD 1 none) GKind.PASS) ∧
    (∃ inpLast, c3Fire.getLast? = some inpLast ∧
      runOutputs tOnlyPASS c1State c3Fire =
        List.replicate (needFrames GKind.PASS - 1) none ++
          [some (Outcome.ges GKind.PASS inpLast.ts)] ∧
      ∀ o ∈ runOutputs tOnlyPASS (runSteps tOnlyPASS c1State c3Fire).1 [],
        ¬ isGes o) := by
  have honly : ∀ k2, ruleEnabled tOnlyPASS k2 = true → k2 = GKind.PASS := by
    intro k2 h
    cases k2 <;> first | rfl |
      simpa [ruleEnabled, tOnlyPASS, defaultThresholds] using h
  constructor
  · have heval : runOutputs tOnlyPASS c1State c3Win = [none, none] := by
      norm_num +decide [runOutputs, runSteps, step, classify, updatedHistory,
        newPointOf, pruneWindow, isOutsideZone, ruleLoop, rulePred, ruleEnabled,
        getCnt, setCnt, zeroCounts, kindOrder, needFrames, tOnlyPASS,
        defaultThresholds, c1State, c1Zone, restBase, c3Win, abs_lt, lt_abs,
        none_eq_some_false, some_eq_none_false, Option.some.injEq]
    refine hysteresis_hold_count.1 tOnlyPASS GKind.PASS restBase c1State c3Win 0
      honly rfl rfl rfl ?_ _ ?_
    · intro idx h _
      simp only [c3Win, List.length_cons, List.length_nil] at h
      norm_num [needFrames]
      omega
    · rw [heval]
      simp
  · refine hysteresis_hold_count.2 tOnlyPASS GKind.PASS restBase c1State c3Fire
      [] honly rfl rfl rfl rfl rfl rfl rfl (by norm_num [c3Fire, needFrames]) ?_
    intro i hi
    simp only [c3Fire, List.mem_cons, List.not_mem_nil, or_false] at hi
    rcases hi with rfl | rfl | rfl <;>
      exact ⟨by norm_num [rawPred, rulePred, tOnlyPASS, defaultThresholds,
          restBase, abs_lt],
        by norm_num [isOutsideZone, c1State, c1Zone, lt_abs],
        by norm_num⟩

/-! ### Pattern arbitration (claim C4) -/

/-- The confidence-maximising fold dominates its accumulator and every
candidate of the list. -/
lemma foldl_best_ge (l : List Cand) (acc : Cand) :
    acc.confidence ≤
      (l.foldl (fun m p => if p.confidence > m.confidence then p else m)
        acc).confidence ∧
    ∀ c ∈ l, c.confidence ≤
      (l.foldl (fun m p => if p.confidence > m.confidence then p else m)
        acc).confidence := by
  induction l generalizing acc with
  | nil => exact ⟨le_refl _, by simp⟩
  | cons p rest ih =>
      have hstep : acc.confidence ≤
          (if p.confidence > acc.confidence then p else acc).confidence := by
        split
        · rename_i hgt
          exact le_of_lt hgt
        · exact le_refl _
      have hp : p.confidence ≤
          (if p.confidence > acc.confidence then p else acc).confidence := by
        split
        · exact le_refl _
        · rename_i hle
          exact not_lt.mp hle
      constructor
      · exact le_trans hstep (ih _).1
      · intro c hc
        rcases List.mem_cons.mp hc with rfl | hc2
        · exact le_trans hp (ih _).1
        · exact (ih _).2 c hc2

/-- Claim C4: on a frame outside the jitter zone whose refreshed pattern
window holds at least `PATTERN_MIN_SAMPLES = 8` points, (1) the selected
candidate's confidence dominates every enabled matcher's confidence; (2) if
the best candidate is detected with confidence above 0.7 and the cooldown
deadline has passed, the frame emits exactly that pattern event, clears the
pattern window entirely, restarts the shared cooldown at `ts + 700`, and
suppresses instantaneous-gesture evaluation for the frame (the hold
counters — and everything else — are untouched); (3) if the best
confidence is at most 0.7, no pattern event is emitted this frame. -/
theorem pattern_arbitration (t : ThresholdConfig) (s : EngineState) (i : Orient)
    (hL : s.isLearning = false)
    (hOut : isOutsideZone s.jitterZone i.beta i.gamma)
    (hLen : 8 ≤ (updatedHistory s i).length) :
    (∀ c ∈ candList t (updatedHistory s i),
      c.confidence ≤ (bestPattern t (updatedHistory s i)).confidence) ∧
    (acceptPattern t (updatedHistory s i) i.ts s.cooldown →
      step t s i = ({ s with patternHistory := [], cooldown := i.ts + 700 },
        some (Outcome.pat (bestPattern t (updatedHistory s i)).name
          (bestPattern t (updatedHistory s i)).confidence i.ts))) ∧
    ((bestPattern t (updatedHistory s i)).confidence ≤ 0.7 →
      ∀ p c ts, (step t s i).2 ≠ some (Outcome.pat p c ts)) := by
  refine ⟨(foldl_best_ge _ _).2, ?_, ?_⟩
  · intro hAcc
    exact step_pattern_accept t s i hL hOut hLen hAcc
  · intro hConf p c ts hcontra
    by_cases hAcc : acceptPattern t (updatedHistory s i) i.ts s.cooldown
    · exact absurd hAcc.2.1 (not_lt.mpr hConf)
    · rw [step_to_classify t s i hL hOut (fun hh => hAcc hh.2)] at hcontra
      rcases classify_cases t { s with patternHistory := updatedHistory s i } i
        with ⟨h0, _, _⟩ | ⟨w, hw, _, _, _, _⟩
      · rw [h0] at hcontra
        exact Option.noConfusion hcontra
      · rw [hw] at hcontra
        simp at hcontra

/-- Seven recent pattern points with high stored velocity (a shake). -/
def c4Hist : List PatternPoint :=
  [⟨0, 0, 100, 100⟩, ⟨0, 0, 200, 100⟩, ⟨0, 0, 300, 100⟩, ⟨0, 0, 400, 100⟩,
   ⟨0, 0, 500, 100⟩, ⟨0, 0, 600, 100⟩, ⟨0, 0, 700, 100⟩]

/-- An active state (no zone) carrying the shake history. -/
def c4State : EngineState :=
  ⟨⟨0, 0⟩, ⟨0, 0⟩, ⟨0, 0⟩, none, zeroCounts, none, 0, c4Hist, none, false,
    [], 0⟩

/-- The 8th frame, still inside the 2-second window. -/
def c4Input : Orient := ⟨0, 0, 1600⟩

/-- The refreshed window of the witness frame: all seven old points survive
pruning and the new (zero-velocity) point is appended. -/
lemma c4_hist_eval :
    updatedHistory c4State c4Input = c4Hist ++ [⟨0, 0, 1600, 0⟩] := by
  norm_num [updatedHistory, newPointOf, pruneWindow, c4State, c4Hist, c4Input,
    Real.sqrt_zero]

/-- The witness frame accepts a pattern: SHAKE is detected with confidence
`min (7/6) 0.95 = 0.95 > 0.7` and the cooldown deadline (0) has passed. -/
lemma c4_accept :
    acceptPattern defaultThresholds (updatedHistory c4State c4Input)
      c4Input.ts c4State.cooldown := by
  rw [c4_hist_eval]
  norm_num [acceptPattern, bestPattern, candList, detectCircularMotion,
    detectFigure8, detectZigzag, detectShake, countPeaks, countRapid,
    defaultThresholds, c4Hist, c4Input, c4State, min_def]

/-- The selected candidate of the witness frame is SHAKE at confidence
0.95. -/
lemma c4_best_props :
    (bestPattern defaultThresholds (updatedHistory c4State c4Input)).name =
      some PName.SHAKE ∧
    (bestPattern defaultThresholds (updatedHistory c4State c4Input)).confidence
      = 0.95 := by
  rw [c4_hist_eval]
  norm_num [bestPattern, candList, detectCircularMotion, detectFigure8,
    detectZigzag, detectShake, countPeaks, countRapid, defaultThresholds,
    c4Hist, min_def]

/-- Witness for claim C4's theorem: the concrete 8-point shake frame emits
the SHAKE pattern event at confidence 0.95, clears the window, and starts
the cooldown at 1600 + 700 = 2300. -/
theorem pattern_arbitration_witness :
    step defaultThresholds c4State c4Input =
      ({ c4State with patternHistory := [], cooldown := 2300 },
        some (Outcome.pat (some PName.SHAKE) 0.95 1600)) := by
  have hOut : isOutsideZone c4State.jitterZone c4Input.beta c4Input.gamma := by
    simp [isOutsideZone, c4State]
  have hLen : 8 ≤ (updatedHistory c4State c4Input).length := by
    rw [c4_hist_eval]
    norm_num [c4Hist]
  have h := (pattern_arbitration defaultThresholds c4State c4Input rfl hOut
    hLen).2.1 c4_accept
  rw [h, c4_best_props.1, c4_best_props.2]
  norm_num [c4Input]

/-! ### The circular matcher (claim C7) -/

/-- Sum of a list whose members all equal `c`. -/
lemma sum_of_all_eq (l : List ℝ) (c : ℝ) (h : ∀ x ∈ l, x = c) :
    l.sum = l.length * c := by
  induction l with
  | nil => simp
  | cons x rest ih =>
      have hx := h x (List.mem_cons_self x rest)
      have hrest := ih (fun y hy => h y (List.mem_cons_of_mem x hy))
      simp only [List.sum_cons, List.length_cons, hx, hrest]
      push_cast
      ring

/-- A sum is dominated by the sum of absolute values. -/
lemma sum_le_sum_abs (l : List ℝ) :
    l.sum ≤ (l.map (fun d => |d|)).sum := by
  induction l with
  | nil => simp
  | cons x rest ih =>
      simp only [List.sum_cons, List.map_cons]
      exact add_le_add (le_abs_self x) ih

/-- Claim C7 (amended): every input to `detectCircularMotion` of at least
12 points all at the same distance `r` STRICTLY greater than 15 degrees
from their centroid, winding monotonically (non-negative wrapped angular
steps) through at least a full revolution (the wrapped steps sum to at
least 2π), is detected with confidence 0.95 ≥ 0.6.  (At `r` exactly 15 the
strict `avgDist > 15` test fails — see the counterexample.) -/
theorem circular_matcher (pts : List PatternPoint) (r : ℝ)
    (hlen : 12 ≤ pts.length)
    (hconst : ∀ d ∈ circDists pts, d = r)
    (hr : 15 < r)
    (_hmono : ∀ d ∈ adjDiffs (circAngles pts), 0 ≤ d)
    (hfull : 2 * π ≤ (adjDiffs (circAngles pts)).sum) :
    (detectCircularMotion pts).detected ∧
    0.6 ≤ (detectCircularMotion pts).confidence := by
  have hlpos : 0 < pts.length := by omega
  have hcast : (0 : ℝ) < ((circDists pts).length : ℝ) := by
    simp only [circDists, List.length_map]
    exact_mod_cast hlpos
  have havg : circAvgDist pts = r := by
    rw [circAvgDist, sum_of_all_eq _ r hconst, mul_comm, mul_div_assoc,
      div_self (ne_of_gt hcast), mul_one]
  have hvar : circVariance pts = 0 := by
    have hz : ∀ x ∈ (circDists pts).map (fun d => (d - circAvgDist pts) ^ 2),
        x = 0 := by
      intro x hx
      obtain ⟨d, hd, rfl⟩ := List.mem_map.mp hx
      rw [hconst d hd, havg]
      ring
    rw [circVariance, sum_of_all_eq _ 0 hz, mul_zero, zero_div]
  have hcons : circConsistency pts = 1 := by
    rw [circConsistency, hvar, zero_div, min_eq_left (by norm_num)]
    norm_num
  have htot : 2 * π ≤ circTotalAngle pts := le_trans hfull (sum_le_sum_abs _)
  have hcov : 1 ≤ circCoverage pts := by
    rw [circCoverage, le_div_iff₀ Real.two_pi_pos]
    linarith
  have hdet : circDetected pts :=
    ⟨by rw [hcons]; norm_num, by rw [gt_iff_lt]; linarith,
      by rw [havg]; exact hr⟩
  have hunfold : detectCircularMotion pts =
      ⟨circDetected pts,
        if circDetected pts then
          min (circConsistency pts * circCoverage pts) 0.95
        else 0⟩ := by
    rw [detectCircularMotion, if_neg (by omega)]
  rw [hunfold]
  refine ⟨hdet, ?_⟩
  show (0.6 : ℝ) ≤ if circDetected pts then
      min (circConsistency pts * circCoverage pts) 0.95 else 0
  rw [if_pos hdet, hcons, one_mul, min_eq_right (by linarith)]
  norm_num

/-- Twelve points looping three times around the four cardinal directions
at radius `r` (timestamps and velocities are ignored by the matcher). -/
def cardinalLoop (r : ℝ) : List PatternPoint :=
  [⟨r, 0, 0, 0⟩, ⟨0, r, 0, 0⟩, ⟨-r, 0, 0, 0⟩, ⟨0, -r, 0, 0⟩,
   ⟨r, 0, 0, 0⟩, ⟨0, r, 0, 0⟩, ⟨-r, 0, 0, 0⟩, ⟨0, -r, 0, 0⟩,
   ⟨r, 0, 0, 0⟩, ⟨0, r, 0, 0⟩, ⟨-r, 0, 0, 0⟩, ⟨0, -r, 0, 0⟩]

/-- The centroid of the cardinal loop is the origin. -/
lemma cardinal_centers (r : ℝ) :
    circCenterB (cardinalLoop r) = 0 ∧ circCenterG (cardinalLoop r) = 0 := by
  constructor <;> simp [circCenterB, circCenterG, cardinalLoop]

/-- All radial distances of the cardinal loop equal `|r| = r`. -/
lemma cardinal_dists_eval (r : ℝ) (hr : 0 ≤ r) :
    circDists (cardinalLoop r) = List.replicate 12 r := by
  rw [circDists]
  simp only [(cardinal_centers r).1, (cardinal_centers r).2]
  simp only [cardinalLoop, List.map_cons, List.map_nil]
  norm_num
  rw [Real.sqrt_sq hr]
  simp [List.replicate_succ]

/-- `Math.atan2 0 r = 0` for positive `r`. -/
lemma atan2_zero_pos (r : ℝ) (hr : 0 < r) : atan2 0 r = 0 := by
  rw [atan2, Complex.arg_eq_zero_iff]
  constructor
  · simpa using hr.le
  · simp

/-- `Math.atan2 r 0 = π/2` for positive `r`. -/
lemma atan2_pos_zero (r : ℝ) (hr : 0 < r) : atan2 r 0 = π / 2 := by
  rw [atan2, Complex.arg_eq_pi_div_two_iff]
  constructor
  · simp
  · simpa using hr

/-- `Math.atan2 0 (-r) = π` for positive `r`. -/
lemma atan2_zero_neg (r : ℝ) (hr : 0 < r) : atan2 0 (-r) = π := by
  rw [atan2, Complex.arg_eq_pi_iff]
  constructor
  · simpa using hr
  · simp

/-- `Math.atan2 (-r) 0 = -(π/2)` for positive `r`. -/
lemma atan2_neg_zero (r : ℝ) (hr : 0 < r) : atan2 (-r) 0 = -(π / 2) := by
  rw [atan2, Complex.arg_eq_neg_pi_div_two_iff]
  constructor
  · simp
  · simpa using hr

/-- The angles of the cardinal loop around its centroid. -/
lemma cardinal_angles (r : ℝ) (hr : 0 < r) :
    circAngles (cardinalLoop r) =
      [0, π / 2, π, -(π / 2), 0, π / 2, π, -(π / 2), 0, π / 2, π, -(π / 2)] := by
  rw [circAngles]
  simp only [(cardinal_centers r).1, (cardinal_centers r).2]
  simp only [cardinalLoop, List.map_cons, List.map_nil]
  norm_num
  rw [atan2_zero_pos r hr, atan2_pos_zero r hr, atan2_zero_neg r hr,
    atan2_neg_zero r hr]
  simp

/-- The four wrapped-step shapes of the cardinal loop all equal `π/2`. -/
lemma wrap_quarter_1 : wrapDiff (π / 2 - 0) = π / 2 := by
  have hπ := Real.pi_pos
  rw [wrapDiff, if_neg (by linarith), if_neg (by linarith)]
  ring

/-- Second step shape. -/
lemma wrap_quarter_2 : wrapDiff (π - π / 2) = π / 2 := by
  have hπ := Real.pi_pos
  rw [wrapDiff, if_neg (by linarith), if_neg (by linarith)]
  ring

/-- Third step shape: wraps by `+2π`. -/
lemma wrap_quarter_3 : wrapDiff (-(π / 2) - π) = π / 2 := by
  have hπ := Real.pi_pos
  rw [wrapDiff, if_neg (by linarith), if_pos (by linarith)]
  ring

/-- Fourth step shape. -/
lemma wrap_quarter_4 : wrapDiff (0 - -(π / 2)) = π / 2 := by
  have hπ := Real.pi_pos
  rw [wrapDiff, if_neg (by linarith), if_neg (by linarith)]
  ring

/-- The eleven wrapped steps of the cardinal loop are all `π/2`. -/
lemma cardinal_adjDiffs (r : ℝ) (hr : 0 < r) :
    adjDiffs (circAngles (cardinalLoop r)) = List.replicate 11 (π / 2) := by
  rw [cardinal_angles r hr]
  simp only [adjDiffs, wrap_quarter_1, wrap_quarter_2, wrap_quarter_3,
    wrap_quarter_4]
  simp [List.replicate_succ]

/-- Claim C7, counterexample: the cardinal loop at radius exactly 15 is a
monotonically looping circular trajectory of 12 points at constant radius
15 (≥ 15) spanning 11·(π/2) ≥ 2π of revolution, yet `detectCircularMotion`
does NOT detect it: the code requires `avgDist > 15` strictly. -/
theorem circular_at_radius_15 :
    12 ≤ (cardinalLoop 15).length ∧
    (∀ d ∈ circDists (cardinalLoop 15), d = 15) ∧
    (∀ d ∈ adjDiffs (circAngles (cardinalLoop 15)), 0 ≤ d) ∧
    2 * π ≤ (adjDiffs (circAngles (cardinalLoop 15))).sum ∧
    ¬ (detectCircularMotion (cardinalLoop 15)).detected := by
  have h15 : (0 : ℝ) < 15 := by norm_num
  have hπ := Real.pi_pos
  refine ⟨by norm_num [cardinalLoop], ?_, ?_, ?_, ?_⟩
  · rw [cardinal_dists_eval 15 (by norm_num)]
    exact fun d hd => List.eq_of_mem_replicate hd
  · rw [cardinal_adjDiffs 15 h15]
    intro d hd
    rw [List.eq_of_mem_replicate hd]
    positivity
  · rw [cardinal_adjDiffs 15 h15, List.sum_replicate, nsmul_eq_mul]
    push_cast
    linarith
  · have havg : circAvgDist (cardinalLoop 15) = 15 := by
      rw [circAvgDist, cardinal_dists_eval 15 (by norm_num)]
      rw [List.sum_replicate, nsmul_eq_mul]
      norm_num
    intro hdet
    rw [detectCircularMotion, if_neg (by norm_num [cardinalLoop])] at hdet
    have := hdet.2.2
    rw [havg] at this
    exact lt_irrefl _ this

/-- Witness for claim C7's (amended) theorem: the cardinal loop at radius
16 satisfies all hypotheses and is detected with confidence at least 0.6. -/
theorem circular_matcher_witness :
    (detectCircularMotion (cardinalLoop 16)).detected ∧
    0.6 ≤ (detectCircularMotion (cardinalLoop 16)).confidence := by
  have h16 : (0 : ℝ) < 16 := by norm_num
  have hπ := Real.pi_pos
  refine circular_matcher (cardinalLoop 16) 16 (by norm_num [cardinalLoop])
    ?_ (by norm_num) ?_ ?_
  · rw [cardinal_dists_eval 16 (by norm_num)]
    exact fun d hd => List.eq_of_mem_replicate hd
  · rw [cardinal_adjDiffs 16 h16]
    intro d hd
    rw [List.eq_of_mem_replicate hd]
    positivity
  · rw [cardinal_adjDiffs 16 h16, List.sum_replicate, nsmul_eq_mul]
    push_cast
    linarith

/-! ### End-to-end PASS scenario (claim C1) -/

/-- A forward flick to beta = b, sustained for 4 frames at 15 FPS. -/
def c1FlickAt (b : ℝ) : List Orient :=
  [⟨b, 0, 1000⟩, ⟨b, 0, 1067⟩, ⟨b, 0, 1134⟩, ⟨b, 0, 1201⟩]

/-- Claim C1, counterexample: a forward flick of exactly 40 degrees from
the learned (0,0) baseline — the scenario as stated, with PASS_MIN = 40 —
emits NO event at all on any of the 4 frames, because the PASS rule
requires `beta > base.beta + PASS_MIN` strictly and `40 > 40` fails. -/
theorem pass_scenario_at_40_silent :
    runOutputs defaultThresholds c1State (c1FlickAt 40) =
      [none, none, none, none] := by
  norm_num +decide [runOutputs, runSteps, step, classify, updatedHistory,
    newPointOf, pruneWindow, isOutsideZone, ruleLoop, rulePred, ruleEnabled,
    getCnt, setCnt, zeroCounts, kindOrder, needFrames,
    defaultThresholds, c1State, c1Zone, restBase, c1FlickAt,
    abs_lt, lt_abs, none_eq_some_false, some_eq_none_false, Option.some.injEq]

/-- A PASS flick (3 frames) followed by a SHOT flick (3 frames) more than
700 ms later. -/
def c2Inputs : List Orient :=
  [⟨41, 0, 1000⟩, ⟨41, 0, 1067⟩, ⟨41, 0, 1134⟩,
   ⟨-30, 0, 2000⟩, ⟨-30, 0, 2067⟩, ⟨-30, 0, 2134⟩]

/-- Evaluation of the two-gesture run: PASS fires on frame 3, SHOT on
frame 6. -/
lemma c2_run_eval :
    runOutputs defaultThresholds c1State c2Inputs =
      [none, none, some (Outcome.ges GKind.PASS 1134),
       none, none, some (Outcome.ges GKind.SHOT 2134)] := by
  norm_num +decide [runOutputs, runSteps, step, classify, updatedHistory,
    newPointOf, pruneWindow, isOutsideZone, ruleLoop, rulePred, ruleEnabled,
    getCnt, setCnt, zeroCounts, kindOrder, needFrames,
    defaultThresholds, c1State, c1Zone, restBase, c2Inputs,
    abs_lt, lt_abs, none_eq_some_false, some_eq_none_false, Option.some.injEq]

/-- Witness for claim C2's theorem: in the concrete two-gesture run, the
SHOT outcome (frame 6, t = 2134) fires no earlier than 700 ms after the
PASS outcome (frame 3, t = 1134). -/
theorem cooldown_exclusivity_witness :
    (Outcome.ges GKind.PASS 1134).ts + 700 ≤ (Outcome.ges GKind.SHOT 2134).ts := by
  refine cooldown_exclusivity defaultThresholds c2Inputs c1State 2 5
    (Outcome.ges GKind.PASS 1134) (Outcome.ges GKind.SHOT 2134)
    (by omega) ?_ ?_ <;> rw [c2_run_eval] <;> rfl

/-- A PASS flick (3 frames) followed, well after the cooldown expired, by
three more PASS-matching frames. -/
def c10Inputs : List Orient :=
  [⟨41, 0, 1000⟩, ⟨41, 0, 1067⟩, ⟨41, 0, 1134⟩,
   ⟨41, 0, 3000⟩, ⟨41, 0, 3067⟩, ⟨41, 0, 3134⟩]

/-- Evaluation of the repeated-PASS run: PASS fires once on frame 3 and,
although its hold count is again satisfied on frames 4-6 with the cooldown
long expired, never again (the latch blocks the same winner). -/
lemma c10_run_eval :
    runOutputs defaultThresholds c1State c10Inputs =
      [none, none, some (Outcome.ges GKind.PASS 1134), none, none, none] := by
  norm_num +decide [runOutputs, runSteps, step, classify, updatedHistory,
    newPointOf, pruneWindow, isOutsideZone, ruleLoop, rulePred, ruleEnabled,
    getCnt, setCnt, zeroCounts, kindOrder, needFrames,
    defaultThresholds, c1State, c1Zone, restBase, c10Inputs,
    abs_lt, lt_abs, none_eq_some_false, some_eq_none_false, Option.some.injEq]

/-- Witness for claim C10's theorem: after the PASS fire at index 2 of the
concrete repeated-PASS run, with no other kind firing in between, index 5
is not a PASS fire. -/
theorem same_kind_lockout_witness :
    ¬ isGesOf ((runOutputs defaultThresholds c1State c10Inputs).getD 5 none)
      GKind.PASS := by
  refine same_kind_lockout defaultThresholds c10Inputs c1State 2 5
    GKind.PASS 1134 (by omega) ?_ ?_
  · rw [c10_run_eval]
    rfl
  · intro j hj1 hj2
    rw [c10_run_eval]
    interval_cases j <;> simp [isOtherGes]

/-- Claim C1 (amended): with the flick strictly above the 40-degree
minimum (here 41 degrees, still below the 85-degree maximum), sustained for
4 frames from the learned (0,0)/±5 baseline with the base sample frozen at
rest, exactly one PASS event is emitted, on the 3rd qualifying frame (hold
count 3), with the `addEvent` default confidence 0.95 ∈ [0.9, 0.95]; frames
1, 2 and 4 emit nothing (frame 4 falls inside the 700 ms cooldown). -/
theorem pass_scenario_above_40 :
    runOutputs defaultThresholds c1State (c1FlickAt 41) =
      [none, none, some (Outcome.ges GKind.PASS 1134), none] ∧
    (0.9 : ℝ) ≤ (Outcome.ges GKind.PASS 1134).confidence ∧
    (Outcome.ges GKind.PASS 1134).confidence ≤ 0.95 := by
  refine ⟨?_, by norm_num [Outcome.confidence], by norm_num [Outcome.confidence]⟩
  norm_num +decide [runOutputs, runSteps, step, classify, updatedHistory,
    newPointOf, pruneWindow, isOutsideZone, ruleLoop, rulePred, ruleEnabled,
    getCnt, setCnt, zeroCounts, kindOrder, needFrames,
    defaultThresholds, c1State, c1Zone, restBase, c1FlickAt,
    abs_lt, lt_abs, none_eq_some_false, some_eq_none_false, Option.some.injEq]

end
